import Mathlib

/- Verification development for the dop-browser Content-- compiler core
   (rust crates dop-parser / dop-content / dop-content-ir).

   Shallow embedding conventions:
   * Rust machine integers (u8 / u32 / u64 / usize) are modelled as Nat with
     explicit bounds or explicit reduction modulo 2^8 / 2^32 / 2^64 where the
     source wraps or truncates.
   * Rust f32 values that are only stored, copied and serialized (style fields)
     are modelled by their 32-bit IEEE-754 bit patterns as Nat, since the code
     never does arithmetic on them; serialization is byte-for-byte on the bits.
   * Rust f32 values that are computed with (the text shaper) are modelled as
     exact rationals; the concrete constants of the claims (16.0, 1.2, 0.6,
     200.0, 200.05, 210.0) behave identically under exact arithmetic for the
     comparisons at stake.
   * Vec is List; HashMap iteration is an explicit association list whose order
     models the (unspecified) iteration order; HashMap lookup keyed maps are
     association lists looked up by key.
   * Loops whose termination in Rust depends on data invariants (the sibling
     walks) take explicit fuel, always called with fuel that the invariants
     prove sufficient.
   * Fallible code returns Option or Except. -/

set_option maxHeartbeats 1600000
set_option maxRecDepth 4000

namespace Dop

/-! Basic list access lemmas used throughout. -/

theorem getD_append_lt {α : Type} (l1 l2 : List α) (d : α) (i : Nat)
    (h : i < l1.length) : (l1 ++ l2).getD i d = l1.getD i d :=
  List.getD_append l1 l2 d i h

theorem getD_append_len {α : Type} (l1 : List α) (x d : α) :
    (l1 ++ [x]).getD l1.length d = x := by
  rw [List.getD_eq_getElem?_getD, List.getElem?_append]
  simp

theorem getD_of_length_le {α : Type} (l : List α) (d : α) (i : Nat)
    (h : l.length ≤ i) : l.getD i d = d := by
  rw [List.getD_eq_getElem?_getD, List.getElem?_eq_none (by omega)]
  rfl

theorem getD_set_self {α : Type} (l : List α) (i : Nat) (x d : α)
    (h : i < l.length) : (l.set i x).getD i d = x := by
  rw [List.getD_eq_getElem?_getD, List.getElem?_set_self (by omega)]
  rfl

theorem getD_set_ne {α : Type} (l : List α) (i j : Nat) (x d : α)
    (h : i ≠ j) : (l.set i x).getD j d = l.getD j d := by
  rw [List.getD_eq_getElem?_getD, List.getD_eq_getElem?_getD,
    List.getElem?_set_ne h]

theorem map_getD_range {α : Type} (l : List α) (d : α) :
    (List.range l.length).map (fun i => l.getD i d) = l := by
  apply List.ext_getElem
  · simp
  · intro n h1 h2
    simp only [List.getElem_map, List.getElem_range]
    rw [List.getD_eq_getElem l d h2]

/-! Node type enums, from dop-parser/src/compiler.rs (the identical enums in
dop-content/src/primitives.rs and dop-content-ir/src/properties.rs are shared
with these definitions). -/

inductive NodeType where
  | Root | Stack | Grid | Scroll | Rect | Paragraph | Span | Link | TextCluster
  deriving DecidableEq, Repr

/-- Numeric value of the repr(u8) discriminant of NodeType. -/
def NodeType.toNat : NodeType → Nat
  | .Root => 0 | .Stack => 1 | .Grid => 2 | .Scroll => 3 | .Rect => 4
  | .Paragraph => 5 | .Span => 6 | .Link => 7 | .TextCluster => 8

/-- Decoding of a node-type byte, from CompiledUnit::read_binary: unknown
ordinals decode as Root. -/
def natToNodeType : Nat → NodeType
  | 0 => .Root | 1 => .Stack | 2 => .Grid | 3 => .Scroll | 4 => .Rect
  | 5 => .Paragraph | 6 => .Span | 7 => .Link | 8 => .TextCluster
  | _ => .Root

inductive Direction where
  | Down | Up | Right | Left
  deriving DecidableEq, Repr

def Direction.toNat : Direction → Nat
  | .Down => 0 | .Up => 1 | .Right => 2 | .Left => 3

inductive Pack where
  | Start | End | Center | SpaceBetween | SpaceAround | SpaceEvenly
  deriving DecidableEq, Repr

def Pack.toNat : Pack → Nat
  | .Start => 0 | .End => 1 | .Center => 2 | .SpaceBetween => 3
  | .SpaceAround => 4 | .SpaceEvenly => 5

inductive Align where
  | Start | End | Center | Stretch
  deriving DecidableEq, Repr

def Align.toNat : Align → Nat
  | .Start => 0 | .End => 1 | .Center => 2 | .Stretch => 3

/-! NodeTable, from dop-parser/src/compiler.rs lines 82-155.  The NodeTable of
dop-content/src/primitives.rs (lines 32-121) has byte-for-byte identical
fields, create_node and get_children; its extra get_node accessor is embedded
below as well.  All ids are 1-based; 0 is the "no node" sentinel. -/

structure NodeTable where
  node_types : List NodeType := []
  parents : List Nat := []
  first_children : List Nat := []
  next_siblings : List Nat := []
  style_ids : List Nat := []
  deriving DecidableEq, Repr

def NodeTable.len (t : NodeTable) : Nat := t.node_types.length

/-- Walk of the while-loop in create_node that finds the last sibling:
sibling = next_siblings[sibling - 1] until it is 0.  Rust's loop terminates
only because sibling chains of well-formed tables are finite; the fuel given
at the call site is proved sufficient for every table built by create_node. -/
def lastSibling (ns : List Nat) (sib : Nat) : Nat → Nat
  | 0 => sib
  | fuel + 1 =>
    let nxt := ns.getD (sib - 1) 0
    if nxt = 0 then sib else lastSibling ns nxt fuel

/-- NodeTable::create_node from compiler.rs lines 114-139 (and the identical
primitives.rs lines 64-89).  Appends the node first; the parent bound check
parent <= node_types.len() therefore uses the length after the push. -/
def NodeTable.create_node (t : NodeTable) (node_type : NodeType)
    (parent style_id : Nat) : Nat × NodeTable :=
  let id := t.node_types.length + 1
  let t1 : NodeTable :=
    { node_types := t.node_types ++ [node_type]
      parents := t.parents ++ [parent]
      first_children := t.first_children ++ [0]
      next_siblings := t.next_siblings ++ [0]
      style_ids := t.style_ids ++ [style_id] }
  let t2 : NodeTable :=
    if parent > 0 ∧ parent ≤ t1.node_types.length then
      let parent_idx := parent - 1
      if t1.first_children.getD parent_idx 0 = 0 then
        { t1 with first_children := t1.first_children.set parent_idx id }
      else
        let sib := lastSibling t1.next_siblings
          (t1.first_children.getD parent_idx 0) t1.node_types.length
        { t1 with next_siblings := t1.next_siblings.set (sib - 1) id }
    else t1
  (id, t2)

/-- Walk of the while-loop in get_children collecting the sibling chain.  Fuel
as in lastSibling. -/
def childrenAux (ns : List Nat) (child : Nat) : Nat → List Nat
  | 0 => []
  | fuel + 1 =>
    if child = 0 then []
    else child :: childrenAux ns (ns.getD (child - 1) 0) fuel

/-- NodeTable::get_children from compiler.rs lines 142-154 (identical in
primitives.rs lines 107-120). -/
def NodeTable.get_children (t : NodeTable) (node_id : Nat) : List Nat :=
  if node_id = 0 ∨ node_id > t.node_types.length then []
  else childrenAux t.next_siblings
    (t.first_children.getD (node_id - 1) 0) (t.node_types.length + 1)

/-- Row view of one node, ContentNode from dop-content/src/primitives.rs. -/
structure ContentNode where
  node_type : NodeType
  parent : Nat
  first_child : Nat
  next_sibling : Nat
  style_id : Nat
  deriving DecidableEq, Repr

/-- NodeTable::get_node from dop-content/src/primitives.rs lines 92-105. -/
def NodeTable.get_node (t : NodeTable) (id : Nat) : Option ContentNode :=
  if id = 0 ∨ id > t.node_types.length then none
  else
    let idx := id - 1
    some { node_type := t.node_types.getD idx .Root
           parent := t.parents.getD idx 0
           first_child := t.first_children.getD idx 0
           next_sibling := t.next_siblings.getD idx 0
           style_id := t.style_ids.getD idx 0 }

/-! PropertyTable of dop-content-ir/src/properties.rs (lines 87-197), with its
Color type and the bounds-checked setters.  f32 entries are bit patterns. -/

namespace ContentIR

structure Color where
  r : Nat
  g : Nat
  b : Nat
  a : Nat
  deriving DecidableEq, Repr

structure PropertyTable where
  direction : List Direction := []
  pack : List Pack := []
  align : List Align := []
  width : List Nat := []
  height : List Nat := []
  gap_row : List Nat := []
  gap_col : List Nat := []
  inset_top : List Nat := []
  inset_right : List Nat := []
  inset_bottom : List Nat := []
  inset_left : List Nat := []
  offset_top : List Nat := []
  offset_right : List Nat := []
  offset_bottom : List Nat := []
  offset_left : List Nat := []
  fill_r : List Nat := []
  fill_g : List Nat := []
  fill_b : List Nat := []
  fill_a : List Nat := []
  border_radius : List Nat := []
  text_content : List String := []
  font_size : List Nat := []
  text_color_r : List Nat := []
  text_color_g : List Nat := []
  text_color_b : List Nat := []
  text_color_a : List Nat := []
  deriving DecidableEq, Repr

/-- PropertyTable::set_fill, properties.rs lines 171-178: in-range writes the
four fill channels, out-of-range (idx not below fill_r.len()) does nothing. -/
def PropertyTable.set_fill (t : PropertyTable) (idx : Nat) (color : Color) :
    PropertyTable :=
  if idx < t.fill_r.length then
    { t with fill_r := t.fill_r.set idx color.r
             fill_g := t.fill_g.set idx color.g
             fill_b := t.fill_b.set idx color.b
             fill_a := t.fill_a.set idx color.a }
  else t

/-- PropertyTable::set_text_color, properties.rs lines 180-187. -/
def PropertyTable.set_text_color (t : PropertyTable) (idx : Nat)
    (color : Color) : PropertyTable :=
  if idx < t.text_color_r.length then
    { t with text_color_r := t.text_color_r.set idx color.r
             text_color_g := t.text_color_g.set idx color.g
             text_color_b := t.text_color_b.set idx color.b
             text_color_a := t.text_color_a.set idx color.a }
  else t

/-- PropertyTable::set_inset, properties.rs lines 189-196; the four arguments
are f32 bit patterns. -/
def PropertyTable.set_inset (t : PropertyTable) (idx : Nat)
    (top right bottom left : Nat) : PropertyTable :=
  if idx < t.inset_top.length then
    { t with inset_top := t.inset_top.set idx top
             inset_right := t.inset_right.set idx right
             inset_bottom := t.inset_bottom.set idx bottom
             inset_left := t.inset_left.set idx left }
  else t

end ContentIR

/-! Flattened styles, from compiler.rs lines 244-417.  FlatStyle is a packed
repr(C) record; every f32 field is stored as its bit pattern, every u8 field
as a Nat below 256, the u64 checksum below 2^64. -/

/-- Bit pattern of f32::MAX (0x7F7FFFFF), the default for max_width and
max_height set at the start of StyleTable::flatten. -/
def f32MaxBits : Nat := 0x7F7FFFFF

/-- Bit pattern of the f32 value 100.0 (0x42C80000). -/
def f32Bits100 : Nat := 0x42C80000

/-- Bit pattern of the f32 value 50.0 (0x42480000). -/
def f32Bits50 : Nat := 0x42480000

@[ext]
structure FlatStyle where
  direction : Nat := 0
  pack : Nat := 0
  align : Nat := 0
  pad0 : Nat := 0
  gap_row : Nat := 0
  gap_col : Nat := 0
  width : Nat := 0
  height : Nat := 0
  min_width : Nat := 0
  min_height : Nat := 0
  max_width : Nat := 0
  max_height : Nat := 0
  inset_top : Nat := 0
  inset_right : Nat := 0
  inset_bottom : Nat := 0
  inset_left : Nat := 0
  offset_top : Nat := 0
  offset_right : Nat := 0
  offset_bottom : Nat := 0
  offset_left : Nat := 0
  fill_r : Nat := 0
  fill_g : Nat := 0
  fill_b : Nat := 0
  fill_a : Nat := 0
  round : Nat := 0
  checksum : Nat := 0
  deriving DecidableEq, Repr

/-- Little-endian bytes of a 32-bit value. -/
def lb4 (v : Nat) : List Nat :=
  [v % 256, v / 256 % 256, v / 65536 % 256, v / 16777216 % 256]

/-- Little-endian bytes of a 64-bit value. -/
def lb8 (v : Nat) : List Nat :=
  [v % 256, v / 256 % 256, v / 65536 % 256, v / 16777216 % 256,
   v / 4294967296 % 256, v / 1099511627776 % 256,
   v / 281474976710656 % 256, v / 72057594037927936 % 256]

/-- Byte serialization of the FlatStyle fields preceding the checksum, in
field declaration order (the layout of the packed repr(C) struct, 76 bytes):
each u8 field is one byte (its value mod 256), each f32 bit pattern its four
little-endian bytes. -/
def FlatStyle.preBytes (s : FlatStyle) : List Nat :=
  [s.direction % 256, s.pack % 256, s.align % 256, s.pad0 % 256,
    s.gap_row % 256, s.gap_row / 256 % 256, s.gap_row / 65536 % 256,
    s.gap_row / 16777216 % 256, s.gap_col % 256, s.gap_col / 256 % 256,
    s.gap_col / 65536 % 256, s.gap_col / 16777216 % 256, s.width % 256,
    s.width / 256 % 256, s.width / 65536 % 256, s.width / 16777216 % 256,
    s.height % 256, s.height / 256 % 256, s.height / 65536 % 256,
    s.height / 16777216 % 256, s.min_width % 256, s.min_width / 256 % 256,
    s.min_width / 65536 % 256, s.min_width / 16777216 % 256,
    s.min_height % 256, s.min_height / 256 % 256,
    s.min_height / 65536 % 256, s.min_height / 16777216 % 256,
    s.max_width % 256, s.max_width / 256 % 256, s.max_width / 65536 % 256,
    s.max_width / 16777216 % 256, s.max_height % 256,
    s.max_height / 256 % 256, s.max_height / 65536 % 256,
    s.max_height / 16777216 % 256, s.inset_top % 256,
    s.inset_top / 256 % 256, s.inset_top / 65536 % 256,
    s.inset_top / 16777216 % 256, s.inset_right % 256,
    s.inset_right / 256 % 256, s.inset_right / 65536 % 256,
    s.inset_right / 16777216 % 256, s.inset_bottom % 256,
    s.inset_bottom / 256 % 256, s.inset_bottom / 65536 % 256,
    s.inset_bottom / 16777216 % 256, s.inset_left % 256,
    s.inset_left / 256 % 256, s.inset_left / 65536 % 256,
    s.inset_left / 16777216 % 256, s.offset_top % 256,
    s.offset_top / 256 % 256, s.offset_top / 65536 % 256,
    s.offset_top / 16777216 % 256, s.offset_right % 256,
    s.offset_right / 256 % 256, s.offset_right / 65536 % 256,
    s.offset_right / 16777216 % 256, s.offset_bottom % 256,
    s.offset_bottom / 256 % 256, s.offset_bottom / 65536 % 256,
    s.offset_bottom / 16777216 % 256, s.offset_left % 256,
    s.offset_left / 256 % 256, s.offset_left / 65536 % 256,
    s.offset_left / 16777216 % 256, s.fill_r % 256, s.fill_g % 256,
    s.fill_b % 256, s.fill_a % 256, s.round % 256, s.round / 256 % 256,
    s.round / 65536 % 256, s.round / 16777216 % 256]

/-- Full byte serialization of a FlatStyle (zerocopy as_bytes of the packed
struct, 84 bytes): the pre-checksum bytes followed by the checksum bytes. -/
def FlatStyle.bytes (s : FlatStyle) : List Nat :=
  s.preBytes ++ lb8 s.checksum

/-- One step of the multiplicative rolling hash: hash*31 + byte, in u64
wrapping arithmetic. -/
def hashStep (h b : Nat) : Nat := (h * 31 + b) % 18446744073709551616

/-- compute_style_checksum from compiler.rs lines 409-417: hash over all
record bytes except the trailing 8 checksum bytes. -/
def compute_style_checksum (style : FlatStyle) : Nat :=
  (style.bytes.take (style.bytes.length - 8)).foldl hashStep 0

/-! Style table and flattening, compiler.rs lines 287-417. -/

/-- Color from dop-parser/src/css_parser.rs (r, g, b, a : u8), the payload of
PropertyValue::Color. -/
structure CssColor where
  r : Nat
  g : Nat
  b : Nat
  a : Nat
  deriving DecidableEq, Repr

/-- PropertyValue from compiler.rs lines 296-305.  Float carries the f32 bit
pattern, Int the i32 value. -/
inductive PropertyValue where
  | Float (v : Nat)
  | Int (v : Int)
  | Color (c : CssColor)
  | String (s : String)
  | Direction (d : Direction)
  | Pack (p : Pack)
  | Align (a : Align)
  deriving DecidableEq, Repr

/-- StyleDef from compiler.rs lines 288-293.  The properties HashMap is
modelled as the association list its iteration produces; a real HashMap has
pairwise distinct keys and an unspecified iteration order. -/
structure StyleDef where
  id : Nat := 0
  parent_id : Nat := 0
  properties : List (String × PropertyValue) := []
  deriving DecidableEq, Repr

structure StyleTable where
  definitions : List StyleDef := []
  flattened : List FlatStyle := []
  deriving DecidableEq, Repr

/-- Continuation of applyProp below: the arms of the flatten name-dispatch
match (compiler.rs lines 367-393) from inset_bottom on.  The single 18-arm
Rust match is embedded as two sequential matches (arms are tried in order and
are mutually exclusive, so the catch-all of the first half defers to the
second half with identical semantics). -/
def applyPropRest (flat : FlatStyle) (kv : String × PropertyValue) :
    FlatStyle :=
  match kv.1, kv.2 with
  | "inset_bottom", PropertyValue.Float v => { flat with inset_bottom := v }
  | "inset_left", PropertyValue.Float v => { flat with inset_left := v }
  | "offset_top", PropertyValue.Float v => { flat with offset_top := v }
  | "offset_right", PropertyValue.Float v => { flat with offset_right := v }
  | "offset_bottom", PropertyValue.Float v => { flat with offset_bottom := v }
  | "offset_left", PropertyValue.Float v => { flat with offset_left := v }
  | "fill", PropertyValue.Color c =>
    { flat with fill_r := c.r, fill_g := c.g, fill_b := c.b, fill_a := c.a }
  | "round", PropertyValue.Float v => { flat with round := v }
  | _, _ => flat

/-- Application of one recognized (name, value) pair to a FlatStyle, the match
in the loop of StyleTable::flatten (compiler.rs lines 367-393).  Unrecognized
names or mismatched payload kinds leave the record unchanged.  Arms from
inset_bottom on continue in applyPropRest (see its comment). -/
def applyProp (flat : FlatStyle) (kv : String × PropertyValue) : FlatStyle :=
  match kv.1, kv.2 with
  | "direction", PropertyValue.Direction d => { flat with direction := d.toNat }
  | "pack", PropertyValue.Pack p => { flat with pack := p.toNat }
  | "align", PropertyValue.Align a => { flat with align := a.toNat }
  | "width", PropertyValue.Float v => { flat with width := v }
  | "height", PropertyValue.Float v => { flat with height := v }
  | "gap_row", PropertyValue.Float v => { flat with gap_row := v }
  | "gap_col", PropertyValue.Float v => { flat with gap_col := v }
  | "inset_top", PropertyValue.Float v => { flat with inset_top := v }
  | "inset_right", PropertyValue.Float v => { flat with inset_right := v }
  | _, _ => applyPropRest flat kv

/-- Flattening of a single StyleDef given the records flattened so far in the
same pass, the loop body of StyleTable::flatten (compiler.rs lines 352-399).
The parent lookup reproduces the source exactly: the iterator find uses the
predicate |_| false, so it inspects flattenedSoFar but never selects any
record. -/
def flattenDef (flattenedSoFar : List FlatStyle) (sd : StyleDef) : FlatStyle :=
  let flat : FlatStyle := { max_width := f32MaxBits, max_height := f32MaxBits }
  let flat :=
    if sd.parent_id > 0 then
      match flattenedSoFar.find? (fun _ => false) with
      | some parent_flat => parent_flat
      | none => flat
    else flat
  let flat := sd.properties.foldl applyProp flat
  { flat with checksum := compute_style_checksum flat }

/-- Forward pass over the definitions, pushing each flattened record. -/
def flattenLoop : List StyleDef → List FlatStyle → List FlatStyle
  | [], acc => acc
  | sd :: rest, acc => flattenLoop rest (acc ++ [flattenDef acc sd])

/-- StyleTable::flatten from compiler.rs lines 349-400: clears flattened and
rebuilds it in declaration order. -/
def StyleTable.flatten (st : StyleTable) : StyleTable :=
  { st with flattened := flattenLoop st.definitions [] }

/-- StyleTable::create_style from compiler.rs lines 323-331. -/
def StyleTable.create_style (st : StyleTable) (id : Nat) : Nat × StyleTable :=
  (id, { st with definitions :=
    st.definitions ++ [{ id := id, parent_id := 0, properties := [] }] })

/-! CompiledUnit and the binary codec, compiler.rs lines 419-587. -/

/-- PropertyTable from compiler.rs lines 161-238 (distinct from the richer
dop-content-ir PropertyTable above).  It is carried by CompiledUnit but not
serialized; read_binary leaves it default-empty.  text_id holds StringId
values as Nat. -/
structure PropertyTable where
  direction : List Direction := []
  pack : List Pack := []
  align : List Align := []
  width : List Nat := []
  height : List Nat := []
  gap_row : List Nat := []
  gap_col : List Nat := []
  inset_top : List Nat := []
  inset_right : List Nat := []
  inset_bottom : List Nat := []
  inset_left : List Nat := []
  offset_top : List Nat := []
  offset_right : List Nat := []
  offset_bottom : List Nat := []
  offset_left : List Nat := []
  fill_r : List Nat := []
  fill_g : List Nat := []
  fill_b : List Nat := []
  fill_a : List Nat := []
  text_id : List Nat := []
  font_size : List Nat := []
  color_r : List Nat := []
  color_g : List Nat := []
  color_b : List Nat := []
  color_a : List Nat := []
  deriving DecidableEq, Repr

/-- Content-- binary format magic number 0x434D4D42 ("CMMB"). -/
def MAGIC_NUMBER : Nat := 0x434D4D42

/-- Current binary format version. -/
def FORMAT_VERSION : Nat := 1

structure CompiledUnit where
  nodes : NodeTable := {}
  properties : PropertyTable := {}
  styles : List FlatStyle := []
  environment_id : Nat := 0
  version : Nat := 0
  checksum : Nat := 0
  deriving DecidableEq, Repr

/-- CompiledUnit::new from compiler.rs lines 436-441: default with version =
FORMAT_VERSION. -/
def CompiledUnit.new : CompiledUnit := { version := FORMAT_VERSION }

/-- CompiledUnit::compute_checksum from compiler.rs lines 444-450, in u64
wrapping arithmetic. -/
def CompiledUnit.compute_checksum (u : CompiledUnit) : CompiledUnit :=
  let n := u.nodes.len
  let h := n % 18446744073709551616
  let h := hashStep h u.environment_id
  let h := hashStep h u.styles.length
  { u with checksum := h }

/-- The 17 serialized bytes of one node record: node_type byte then the four
u32 link fields little-endian (write_binary loop, compiler.rs lines 473-479). -/
def ContentNode.bytes (r : ContentNode) : List Nat :=
  r.node_type.toNat :: (lb4 r.parent ++ (lb4 r.first_child
    ++ (lb4 r.next_sibling ++ lb4 r.style_id)))

/-- Row view of the SoA node table in index order, as the write_binary loop
reads it (indexing all five arrays at i in 0..len). -/
def NodeTable.rows (t : NodeTable) : List ContentNode :=
  (List.range t.node_types.length).map (fun i =>
    { node_type := t.node_types.getD i .Root
      parent := t.parents.getD i 0
      first_child := t.first_children.getD i 0
      next_sibling := t.next_siblings.getD i 0
      style_id := t.style_ids.getD i 0 })

/-- Concatenated node records. -/
def writeNodes : List ContentNode → List Nat
  | [] => []
  | r :: rs => r.bytes ++ writeNodes rs

/-- Concatenated style records. -/
def writeStyles : List FlatStyle → List Nat
  | [] => []
  | s :: ss => s.bytes ++ writeStyles ss

/-- CompiledUnit::write_binary from compiler.rs lines 453-491. Counts are
written as u32 (hence mod 2^32). -/
def CompiledUnit.write_binary (u : CompiledUnit) : List Nat :=
  lb4 MAGIC_NUMBER ++
  (lb4 u.version ++
  (lb4 u.environment_id ++
  (lb8 u.checksum ++
  (lb4 (u.nodes.len % 4294967296) ++
  (writeNodes u.nodes.rows ++
  (lb4 (u.styles.length % 4294967296) ++
  writeStyles u.styles))))))

/-- Decode failures: oob marks a read the Rust code would perform without a
bounds guard (an out-of-bounds slice would panic there); reject marks the
guarded early returns of read_binary (short input, bad magic). -/
inductive ReadErr where
  | oob
  | reject
  deriving DecidableEq, Repr

/-- Little-endian read of k bytes off the front of the stream.  Models the
data[offset..offset+k] slice plus from_le_bytes; a slice past the end is the
oob error. -/
def readLE : Nat → List Nat → Except ReadErr (Nat × List Nat)
  | 0, data => .ok (0, data)
  | _ + 1, [] => .error .oob
  | k + 1, b :: rest =>
    match readLE k rest with
    | .ok (v, fin) => .ok (b + 256 * v, fin)
    | .error e => .error e

/-- Node record loop of read_binary (compiler.rs lines 527-563): per record,
guard that 17 bytes remain, then read the five fields. -/
def readNodes : Nat → List Nat → Except ReadErr (List ContentNode × List Nat)
  | 0, data => .ok ([], data)
  | n + 1, data =>
    if data.length < 17 then .error .reject
    else
      match readLE 1 data with
      | .error e => .error e
      | .ok (tb, r1) =>
        match readLE 4 r1 with
        | .error e => .error e
        | .ok (parent, r2) =>
          match readLE 4 r2 with
          | .error e => .error e
          | .ok (first_child, r3) =>
            match readLE 4 r3 with
            | .error e => .error e
            | .ok (next_sibling, r4) =>
              match readLE 4 r4 with
              | .error e => .error e
              | .ok (style_id, r5) =>
                match readNodes n r5 with
                | .error e => .error e
                | .ok (rest, fin) =>
                  .ok ({ node_type := natToNodeType tb, parent := parent,
                         first_child := first_child,
                         next_sibling := next_sibling,
                         style_id := style_id } :: rest, fin)

/-- Reconstruction of a FlatStyle from its 84 serialized bytes (zerocopy
read_from_bytes on the packed struct, which always succeeds on an exact-size
buffer). -/
def FlatStyle.ofBytes (l : List Nat) : FlatStyle :=
  let b := fun i => l.getD i 0
  let le4 := fun i => b i + 256 * (b (i+1) + 256 * (b (i+2) + 256 * b (i+3)))
  { direction := b 0, pack := b 1, align := b 2, pad0 := b 3
    gap_row := le4 4, gap_col := le4 8
    width := le4 12, height := le4 16
    min_width := le4 20, min_height := le4 24
    max_width := le4 28, max_height := le4 32
    inset_top := le4 36, inset_right := le4 40
    inset_bottom := le4 44, inset_left := le4 48
    offset_top := le4 52, offset_right := le4 56
    offset_bottom := le4 60, offset_left := le4 64
    fill_r := b 68, fill_g := b 69, fill_b := b 70, fill_a := b 71
    round := le4 72
    checksum := le4 76 + 4294967296 * le4 80 }

/-- Style record loop of read_binary (compiler.rs lines 572-583): per record,
guard that 84 bytes remain, then decode them. -/
def readStyles : Nat → List Nat → Except ReadErr (List FlatStyle × List Nat)
  | 0, data => .ok ([], data)
  | s + 1, data =>
    if data.length < 84 then .error .reject
    else
      match readStyles s (data.drop 84) with
      | .error e => .error e
      | .ok (rest, fin) => .ok (FlatStyle.ofBytes (data.take 84) :: rest, fin)

/-- CompiledUnit::read_binary from compiler.rs lines 494-586, with the failure
mode split into guarded rejects and would-be-panic oob reads (the public
function collapses both to no value, see read_binary below). -/
def readBinaryE (data : List Nat) : Except ReadErr CompiledUnit :=
  if data.length < 24 then .error .reject
  else
    match readLE 4 data with
    | .error e => .error e
    | .ok (magic, r1) =>
      if magic ≠ MAGIC_NUMBER then .error .reject
      else
        match readLE 4 r1 with
        | .error e => .error e
        | .ok (version, r2) =>
          match readLE 4 r2 with
          | .error e => .error e
          | .ok (environment_id, r3) =>
            match readLE 8 r3 with
            | .error e => .error e
            | .ok (checksum, r4) =>
              match readLE 4 r4 with
              | .error e => .error e
              | .ok (n, r5) =>
                match readNodes n r5 with
                | .error e => .error e
                | .ok (rows, r6) =>
                  if r6.length < 4 then .error .reject
                  else
                    match readLE 4 r6 with
                    | .error e => .error e
                    | .ok (s, r7) =>
                      match readStyles s r7 with
                      | .error e => .error e
                      | .ok (styles, _) =>
                        .ok { CompiledUnit.new with
                              nodes :=
                                { node_types := rows.map (·.node_type)
                                  parents := rows.map (·.parent)
                                  first_children := rows.map (·.first_child)
                                  next_siblings := rows.map (·.next_sibling)
                                  style_ids := rows.map (·.style_id) }
                              styles := styles
                              environment_id := environment_id
                              version := version
                              checksum := checksum }

/-- CompiledUnit::read_binary as the caller sees it: any failure is an absent
result. -/
def CompiledUnit.read_binary (data : List Nat) : Option CompiledUnit :=
  (readBinaryE data).toOption

/-! JIT text shaping, compiler.rs lines 589-725.  The f32 arithmetic of the
shaper is modelled exactly over the rationals (16.0, 1.2 = 6/5, 0.6 = 3/5 and
the widths of the claims are exactly representable decimals; the greedy
wrapping and bucketing comparisons at stake coincide). -/

/-- UTF-8 encoding of one character (the bytes Rust's str::bytes yields). -/
def charUtf8Bytes (c : Char) : List Nat :=
  let n := c.toNat
  if n < 128 then [n]
  else if n < 2048 then [192 + n / 64, 128 + n % 64]
  else if n < 65536 then
    [224 + n / 4096, 128 + n / 64 % 64, 128 + n % 64]
  else
    [240 + n / 262144, 128 + n / 4096 % 64, 128 + n / 64 % 64, 128 + n % 64]

/-- UTF-8 bytes of a string. -/
def strBytes (s : String) : List Nat :=
  s.data.foldr (fun c acc => charUtf8Bytes c ++ acc) []

/-- Rust String::len / str::len: the UTF-8 byte length. -/
def strByteLen (s : String) : Nat := (strBytes s).length

/-- compute_text_hash from compiler.rs lines 719-725: the rolling 31-hash over
the UTF-8 bytes, in u64 wrapping arithmetic. -/
def compute_text_hash (text : String) : Nat :=
  (strBytes text).foldl hashStep 0

/-- Rust float-to-i32 cast: truncation toward zero (saturation at the i32
limits is not modelled; the widths at stake are tiny). -/
def truncToInt (q : ℚ) : Int := if 0 ≤ q then ⌊q⌋ else ⌈q⌉

structure TextCluster where
  x : ℚ := 0
  y : ℚ := 0
  width : ℚ := 0
  height : ℚ := 0
  glyph_start : Nat := 0
  glyph_count : Nat := 0
  deriving DecidableEq, Repr

structure ShapedParagraph where
  text_hash : Nat
  max_width : ℚ
  width : ℚ
  height : ℚ
  line_count : Nat
  clusters : List TextCluster
  deriving DecidableEq, Repr

/-- TextShaper state: the cache HashMap modelled as an association list from
(text_hash, width bucket) keys, plus the current font size and line height. -/
structure TextShaper where
  cache : List ((Nat × Int) × ShapedParagraph) := []
  font_size : ℚ := 16
  line_height : ℚ := 6/5
  deriving DecidableEq, Repr

/-- TextShaper::new from compiler.rs lines 630-636: empty cache, font_size
16.0, line_height 1.2. -/
def TextShaper.new : TextShaper := {}

/-- Cache key of shape_paragraph: (text hash, (max_width * 10.0) as i32). -/
def shapeCacheKey (text : String) (max_width : ℚ) : Nat × Int :=
  (compute_text_hash text, truncToInt (max_width * 10))

/-- Accumulator pass behind splitWhitespace: cur holds the characters of the
word in progress, in reverse. -/
def splitWsAux : List Char → List Char → List String
  | [], [] => []
  | [], cur => [String.mk cur.reverse]
  | c :: rest, cur =>
    if c.isWhitespace then
      if cur = [] then splitWsAux rest []
      else String.mk cur.reverse :: splitWsAux rest []
    else splitWsAux rest (c :: cur)

/-- Rust str::split_whitespace: the nonempty maximal runs between whitespace
characters (ASCII whitespace in this model). -/
def splitWhitespace (text : String) : List String :=
  splitWsAux text.data []

/-- Rust f32::max on the exact-rational model (the shaper never produces
NaN). -/
def fmax (a b : ℚ) : ℚ := if a < b then b else a

/-- One step of the greedy wrap loop of shape_paragraph (compiler.rs lines
657-667); the state is (finished lines, current line). -/
def wrapStep (chars_per_line : Nat) (st : List String × String)
    (word : String) : List String × String :=
  if strByteLen st.2 + strByteLen word + 1 > chars_per_line ∧ st.2 ≠ "" then
    (st.1 ++ [st.2], word)
  else
    (st.1, if st.2 = "" then word else st.2 ++ " " ++ word)

/-- The wrapped lines of a text at a given character budget per line. -/
def wrapLines (chars_per_line : Nat) (text : String) : List String :=
  let st := (splitWhitespace text).foldl (wrapStep chars_per_line) ([], "")
  if st.2 ≠ "" then st.1 ++ [st.2] else st.1

/-- Cache-miss computation of shape_paragraph (compiler.rs lines 650-698):
greedy wrap at font_size * 0.6 per character, one cluster per line, height
line_count * line-height-in-px floored at one line height. -/
def shapeComputeParagraph (font_size line_height : ℚ) (text : String)
    (max_width : ℚ) : ShapedParagraph :=
  let char_width := font_size * (3/5)
  let chars_per_line : Nat := (⌊max_width / char_width⌋).toNat
  let lines := wrapLines chars_per_line text
  let line_height_px := font_size * line_height
  let total_height := (lines.length : ℚ) * line_height_px
  let max_line_width :=
    lines.foldl (fun acc l => fmax acc ((strByteLen l : ℚ) * char_width)) 0
  let clusters : List TextCluster := lines.enum.map (fun p =>
    { x := 0, y := (p.1 : ℚ) * line_height_px
      width := (strByteLen p.2 : ℚ) * char_width, height := line_height_px
      glyph_start := 0, glyph_count := strByteLen p.2 })
  { text_hash := compute_text_hash text
    max_width := max_width
    width := max_line_width
    height := fmax total_height line_height_px
    line_count := lines.length
    clusters := clusters }

/-- TextShaper::shape_paragraph from compiler.rs lines 640-702: look the key
up in the cache, on a hit return the stored clone, on a miss compute, insert
and return. -/
def TextShaper.shape_paragraph (shaper : TextShaper) (text : String)
    (max_width : ℚ) : ShapedParagraph × TextShaper :=
  let cache_key := shapeCacheKey text max_width
  match shaper.cache.lookup cache_key with
  | some cached => (cached, shaper)
  | none =>
    let shaped := shapeComputeParagraph shaper.font_size shaper.line_height
      text max_width
    (shaped, { shaper with cache := (cache_key, shaped) :: shaper.cache })

/-- TextShaper::set_font_size from compiler.rs lines 710-715: a change of more
than 0.01 updates the size and clears the whole cache. -/
def TextShaper.set_font_size (shaper : TextShaper) (size : ℚ) : TextShaper :=
  if 1/100 < |shaper.font_size - size| then
    { shaper with font_size := size, cache := [] }
  else shaper

/-! Well-formedness predicates. -/

/-- Parallel-array consistency of a NodeTable (all five SoA arrays have the
node count as length); create_node maintains it and Rust indexing relies on
it. -/
def NodeTable.SameLen (t : NodeTable) : Prop :=
  t.parents.length = t.node_types.length ∧
  t.first_children.length = t.node_types.length ∧
  t.next_siblings.length = t.node_types.length ∧
  t.style_ids.length = t.node_types.length

instance (t : NodeTable) : Decidable t.SameLen := by
  unfold NodeTable.SameLen; infer_instance

/-- Parallel-array consistency of the dop-content-ir PropertyTable: all
backing arrays have the common table length n (resize establishes this). -/
def ContentIR.PropertyTable.Uniform (t : ContentIR.PropertyTable) (n : Nat) :
    Prop :=
  t.direction.length = n ∧ t.pack.length = n ∧ t.align.length = n ∧
  t.width.length = n ∧ t.height.length = n ∧ t.gap_row.length = n ∧
  t.gap_col.length = n ∧ t.inset_top.length = n ∧ t.inset_right.length = n ∧
  t.inset_bottom.length = n ∧ t.inset_left.length = n ∧
  t.offset_top.length = n ∧ t.offset_right.length = n ∧
  t.offset_bottom.length = n ∧ t.offset_left.length = n ∧
  t.fill_r.length = n ∧ t.fill_g.length = n ∧ t.fill_b.length = n ∧
  t.fill_a.length = n ∧ t.border_radius.length = n ∧
  t.text_content.length = n ∧ t.font_size.length = n ∧
  t.text_color_r.length = n ∧ t.text_color_g.length = n ∧
  t.text_color_b.length = n ∧ t.text_color_a.length = n

instance (t : ContentIR.PropertyTable) (n : Nat) : Decidable (t.Uniform n) := by
  unfold ContentIR.PropertyTable.Uniform; infer_instance

/-! Claim C7: bounds safety of the dop-content-ir property setters and of the
dop-content node lookups. -/

/-- C7: for a PropertyTable whose arrays all have length n, set_fill,
set_text_color and set_inset called with an index at or beyond n leave the
table exactly as it was (every array unchanged, guaranteed by the bounds
guard, hence no panic); and get_children with id 0 or beyond the node count
returns the empty list while get_node returns no value. -/
theorem setters_and_lookups_bounds_safe
    (pt : ContentIR.PropertyTable) (n idx : Nat) (c c2 : ContentIR.Color)
    (a b c3 d : Nat) (t : NodeTable) (id : Nat)
    (hpt : pt.Uniform n) (hidx : n ≤ idx) (hid : id = 0 ∨ t.len < id) :
    pt.set_fill idx c = pt ∧ pt.set_text_color idx c2 = pt ∧
    pt.set_inset idx a b c3 d = pt ∧
    t.get_children id = [] ∧ t.get_node id = none := by
  obtain ⟨-, -, -, -, -, -, -, hit, -, -, -, -, -, -, -, hfr, -, -, -, -, -,
    -, htr, -, -, -⟩ := hpt
  refine ⟨?_, ?_, ?_, ?_, ?_⟩
  · rw [ContentIR.PropertyTable.set_fill, if_neg (by omega)]
  · rw [ContentIR.PropertyTable.set_text_color, if_neg (by omega)]
  · rw [ContentIR.PropertyTable.set_inset, if_neg (by omega)]
  · rw [NodeTable.get_children,
      if_pos (show id = 0 ∨ id > t.node_types.length from hid)]
  · rw [NodeTable.get_node,
      if_pos (show id = 0 ∨ id > t.node_types.length from hid)]

/-- Concrete instantiation of setters_and_lookups_bounds_safe: the empty
tables at index 0 / id 0. -/
theorem setters_and_lookups_bounds_safe_witness :
    ContentIR.PropertyTable.set_fill {} 0 ⟨1, 2, 3, 4⟩ = {} ∧
    ContentIR.PropertyTable.set_text_color {} 0 ⟨1, 2, 3, 4⟩ = {} ∧
    ContentIR.PropertyTable.set_inset {} 0 1 2 3 4 = {} ∧
    NodeTable.get_children {} 0 = [] ∧ NodeTable.get_node {} 0 = none :=
  setters_and_lookups_bounds_safe {} 0 0 ⟨1, 2, 3, 4⟩ ⟨1, 2, 3, 4⟩ 1 2 3 4
    {} 0 (by decide) (by decide) (by decide)

/-! Claim C10: the self-parenting edge case of create_node.  The parent bound
check runs after the push, so parent = len + 1 (the id of the node being
created) passes the check and the new node links itself as its own first
child. -/

/-- Evaluation helper: walking a sibling chain from the null id yields no
children whatever the fuel. -/
theorem childrenAux_zero (ns : List Nat) (fuel : Nat) :
    childrenAux ns 0 fuel = [] := by
  cases fuel <;> simp [childrenAux]

/-- C10: on any length-consistent table of n nodes, create_node with parent
n + 1 (the id the new node itself receives) is accepted by the bound check,
stores parent = n + 1, sets the new node's first_child to its own id, and
get_children (n + 1) afterwards returns [n + 1]. -/
theorem create_node_self_parent (t : NodeTable) (nt : NodeType) (sid : Nat)
    (h : t.SameLen) :
    (t.create_node nt (t.node_types.length + 1) sid).1
      = t.node_types.length + 1 ∧
    (t.create_node nt (t.node_types.length + 1) sid).2.parents.getD
      t.node_types.length 0 = t.node_types.length + 1 ∧
    (t.create_node nt (t.node_types.length + 1) sid).2.first_children.getD
      t.node_types.length 0 = t.node_types.length + 1 ∧
    (t.create_node nt (t.node_types.length + 1) sid).2.get_children
      (t.node_types.length + 1) = [t.node_types.length + 1] := by
  obtain ⟨hp, hf, hn, hs⟩ := h
  have hfc0 : (t.first_children ++ [(0 : Nat)]).getD t.node_types.length 0
      = 0 := by
    rw [show t.node_types.length = t.first_children.length from hf.symm,
      getD_append_len]
  have hpar : (t.parents ++ [t.node_types.length + 1]).getD
      t.node_types.length 0 = t.node_types.length + 1 := by
    rw [show t.node_types.length = t.parents.length from hp.symm,
      getD_append_len]
  have hfcset : ((t.first_children ++ [(0 : Nat)]).set t.node_types.length
      (t.node_types.length + 1)).getD t.node_types.length 0
      = t.node_types.length + 1 := by
    rw [getD_set_self]
    simp [hf]
  have hns0 : (t.next_siblings ++ [(0 : Nat)]).getD t.node_types.length 0
      = 0 := by
    rw [show t.node_types.length = t.next_siblings.length from hn.symm,
      getD_append_len]
  simp only [NodeTable.create_node, List.length_append, List.length_cons,
    List.length_nil, Nat.zero_add, Nat.add_sub_cancel, hfc0, if_true,
    eq_self_iff_true, gt_iff_lt, Nat.succ_pos, le_refl, and_self, true_and]
  refine ⟨hpar, hfcset, ?_⟩
  rw [NodeTable.get_children]
  simp only [List.length_append, List.length_cons, List.length_nil,
    Nat.zero_add, Nat.add_sub_cancel]
  rw [if_neg (by omega), hfcset, childrenAux, if_neg (by omega)]
  simp only [Nat.add_sub_cancel]
  rw [hns0, childrenAux_zero]

/-- Concrete instantiation of create_node_self_parent: the empty table, where
the created node 1 becomes its own child. -/
theorem create_node_self_parent_witness :
    (NodeTable.create_node {} .Root 1 0).1 = 1 ∧
    (NodeTable.create_node {} .Root 1 0).2.parents.getD 0 0 = 1 ∧
    (NodeTable.create_node {} .Root 1 0).2.first_children.getD 0 0 = 1 ∧
    (NodeTable.create_node {} .Root 1 0).2.get_children 1 = [1] :=
  create_node_self_parent {} .Root 0 (by decide)

/-! Claim C1: the ordering-sensitive style inheritance the spec describes.
The source predicate find(|_| false) never selects the parent record even
when it was flattened earlier in the pass, so no inheritance ever happens;
style B below keeps width 0 although its parent A (width = 100.0) was
declared and flattened first.  This contradicts the flatten doc comment
(Resolves all inheritance chains) and the spec, so it is recorded as a code
bug, witnessed by this evaluation. -/

/-- Style A of the claim: id 1, width = 100.0, height = 50.0 (bit patterns). -/
def c1StyleA : StyleDef :=
  { id := 1
    properties := [("width", .Float f32Bits100), ("height", .Float f32Bits50)] }

/-- Style B of the claim: id 2, parent_id = 1, no own properties. -/
def c1StyleB : StyleDef := { id := 2, parent_id := 1 }

/-- C1 (failing evaluation): flattening [A, B] — parent declared first —
leaves B's width at the default 0 instead of the claimed inherited 100.0:
the widths come out as [bits of 100.0, 0] and bits of 100.0 is nonzero. -/
theorem flatten_parent_lookup_never_matches :
    (StyleTable.flatten { definitions := [c1StyleA, c1StyleB] }).flattened.map
      FlatStyle.width = [f32Bits100, 0] ∧ f32Bits100 ≠ 0 := by
  constructor
  · rfl
  · decide

/-! Claims C5 and C9: the text shaper. -/

/-- Cache-miss behaviour of shape_paragraph: when the key is absent the
computed paragraph is returned and inserted. -/
theorem shape_paragraph_miss (s : TextShaper) (text : String) (mw : ℚ)
    (h : s.cache.lookup (shapeCacheKey text mw) = none) :
    s.shape_paragraph text mw
      = (shapeComputeParagraph s.font_size s.line_height text mw,
         { s with cache := (shapeCacheKey text mw,
             shapeComputeParagraph s.font_size s.line_height text mw)
             :: s.cache }) := by
  simp only [TextShaper.shape_paragraph]
  rw [h]

/-- Cache-hit behaviour of shape_paragraph: a stored key returns the stored
paragraph and leaves the shaper unchanged. -/
theorem shape_paragraph_hit (s : TextShaper) (text : String) (mw : ℚ)
    (r : ShapedParagraph)
    (h : s.cache.lookup (shapeCacheKey text mw) = some r) :
    s.shape_paragraph text mw = (r, s) := by
  simp only [TextShaper.shape_paragraph]
  rw [h]

/-- Height of a freshly computed paragraph as the f32::max the code takes. -/
theorem shapeCompute_height (fs lh : ℚ) (text : String) (mw : ℚ) :
    (shapeComputeParagraph fs lh text mw).height
      = fmax (((shapeComputeParagraph fs lh text mw).line_count : ℚ) * (fs * lh))
          (fs * lh) := rfl

/-- C5 (amended): on a cache miss, the returned height is line_count *
font_size * 1.2 when at least one line was produced, but for a text with no
words (line_count = 0) it is one line height, font_size * 1.2 = 16 * (6/5),
not 0: the code floors the total at one line height via
total_height.max(line_height_px). -/
theorem shape_paragraph_miss_height (s : TextShaper) (text : String) (mw : ℚ)
    (hfs : s.font_size = 16) (hlh : s.line_height = 6/5)
    (hmiss : s.cache.lookup (shapeCacheKey text mw) = none) :
    ((s.shape_paragraph text mw).1.line_count = 0 →
      (s.shape_paragraph text mw).1.height = 16 * (6/5)) ∧
    ((s.shape_paragraph text mw).1.line_count ≠ 0 →
      (s.shape_paragraph text mw).1.height
        = ((s.shape_paragraph text mw).1.line_count : ℚ) * (16 * (6/5))) := by
  have hc : (s.shape_paragraph text mw).1
      = shapeComputeParagraph 16 (6/5) text mw := by
    rw [shape_paragraph_miss s text mw hmiss, hfs, hlh]
  rw [hc, shapeCompute_height]
  constructor
  · intro h0
    rw [h0]
    rw [fmax, if_pos (by norm_num)]
  · intro hn
    have h1 : (1 : ℚ) ≤ ((shapeComputeParagraph 16 (6/5) text mw).line_count : ℚ) := by
      have : 1 ≤ (shapeComputeParagraph 16 (6/5) text mw).line_count := by
        omega
      exact_mod_cast this
    rw [fmax, if_neg]
    push_neg
    calc (16 * (6/5) : ℚ) = 1 * (16 * (6/5)) := by ring
    _ ≤ ((shapeComputeParagraph 16 (6/5) text mw).line_count : ℚ)
        * (16 * (6/5)) := by
      apply mul_le_mul_of_nonneg_right h1
      norm_num

/-- Concrete instantiation of shape_paragraph_miss_height at the fresh shaper
and empty text. -/
theorem shape_paragraph_miss_height_witness :
    ((TextShaper.new.shape_paragraph "" 200).1.line_count = 0 →
      (TextShaper.new.shape_paragraph "" 200).1.height = 16 * (6/5)) ∧
    ((TextShaper.new.shape_paragraph "" 200).1.line_count ≠ 0 →
      (TextShaper.new.shape_paragraph "" 200).1.height
        = ((TextShaper.new.shape_paragraph "" 200).1.line_count : ℚ)
          * (16 * (6/5))) :=
  shape_paragraph_miss_height TextShaper.new "" 200 rfl rfl rfl

/-- C5 (counterexample to the claim as stated): shaping the empty text on a
fresh shaper produces line_count 0 yet a height different from line_count *
font_size * 1.2 = 0 (the height is one line height, 96/5 = 19.2). -/
theorem shape_empty_text_height_nonzero :
    (TextShaper.new.shape_paragraph "" 200).1.line_count = 0 ∧
    (TextShaper.new.shape_paragraph "" 200).1.height ≠
      ((TextShaper.new.shape_paragraph "" 200).1.line_count : ℚ)
        * 16 * (6/5) := by
  have hc : (TextShaper.new.shape_paragraph "" 200).1
      = shapeComputeParagraph 16 (6/5) "" 200 := by
    rw [shape_paragraph_miss TextShaper.new "" 200 rfl]
    rfl
  have hl : (shapeComputeParagraph 16 (6/5) "" 200).line_count = 0 := rfl
  rw [hc]
  refine ⟨hl, ?_⟩
  rw [shapeCompute_height, hl]
  rw [fmax, if_pos (by norm_num)]
  norm_num

/-- C9: cache bucketing of shape_paragraph.  Keys are (text hash, truncation
of max_width * 10); 200.05 = 4001/20 shares the bucket 2000 with 200.0, so on
the same text the second call returns exactly the record stored by the first,
while 210.0 gives the bucket 2100, misses and recomputes. -/
theorem shape_paragraph_cache_bucketing (text : String) :
    shapeCacheKey text (4001/20) = shapeCacheKey text 200 ∧
    shapeCacheKey text 210 ≠ shapeCacheKey text 200 ∧
    ((TextShaper.new.shape_paragraph text 200).2.shape_paragraph text
      (4001/20)).1 = (TextShaper.new.shape_paragraph text 200).1 ∧
    ((TextShaper.new.shape_paragraph text 200).2.shape_paragraph text 210).1
      = shapeComputeParagraph 16 (6/5) text 210 := by
  have hb200 : truncToInt ((200 : ℚ) * 10) = 2000 := by
    rw [truncToInt, if_pos (by norm_num), Int.floor_eq_iff]
    norm_num
  have hb20005 : truncToInt ((4001/20 : ℚ) * 10) = 2000 := by
    rw [truncToInt, if_pos (by norm_num), Int.floor_eq_iff]
    norm_num
  have hb210 : truncToInt ((210 : ℚ) * 10) = 2100 := by
    rw [truncToInt, if_pos (by norm_num), Int.floor_eq_iff]
    norm_num
  have hkey1 : shapeCacheKey text (4001/20) = shapeCacheKey text 200 := by
    rw [shapeCacheKey, shapeCacheKey, hb200, hb20005]
  have hkey2 : shapeCacheKey text 210 ≠ shapeCacheKey text 200 := by
    rw [shapeCacheKey, shapeCacheKey, hb210, hb200]
    intro hcon
    exact absurd (congrArg Prod.snd hcon) (by norm_num)
  have hm1 : TextShaper.new.shape_paragraph text 200
      = (shapeComputeParagraph 16 (6/5) text 200,
         { TextShaper.new with
           cache := [(shapeCacheKey text 200,
             shapeComputeParagraph 16 (6/5) text 200)] }) :=
    shape_paragraph_miss TextShaper.new text 200 rfl
  refine ⟨hkey1, hkey2, ?_, ?_⟩
  · rw [hm1]
    rw [shape_paragraph_hit _ text (4001/20)
      (shapeComputeParagraph 16 (6/5) text 200) (by
        rw [hkey1]
        simp [List.lookup])]
  · rw [hm1]
    rw [shape_paragraph_miss _ text 210 (by
      have hb : (shapeCacheKey text 210 == shapeCacheKey text 200) = false :=
        beq_eq_false_iff_ne.mpr hkey2
      simp [List.lookup, hb])]
    rfl

/-! Claim C4: flattening determinism.  The HashMap iteration order of a
StyleDef's properties is arbitrary; the theorems below show the fold of
applyProp is invariant under permutations with pairwise distinct keys because
every recognized name writes its own FlatStyle field.  The per-field frame
and write lemmas characterize applyProp one projection at a time. -/

theorem applyPropRest_keep_direction (w : FlatStyle) (n : String)
    (v : PropertyValue) : (applyPropRest w (n, v)).direction = w.direction := by
  unfold applyPropRest
  dsimp only
  split <;> rfl

theorem applyPropRest_keep_pack (w : FlatStyle) (n : String)
    (v : PropertyValue) : (applyPropRest w (n, v)).pack = w.pack := by
  unfold applyPropRest
  dsimp only
  split <;> rfl

theorem applyPropRest_keep_align (w : FlatStyle) (n : String)
    (v : PropertyValue) : (applyPropRest w (n, v)).align = w.align := by
  unfold applyPropRest
  dsimp only
  split <;> rfl

theorem applyPropRest_keep_pad0 (w : FlatStyle) (n : String)
    (v : PropertyValue) : (applyPropRest w (n, v)).pad0 = w.pad0 := by
  unfold applyPropRest
  dsimp only
  split <;> rfl

theorem applyPropRest_keep_gap_row (w : FlatStyle) (n : String)
    (v : PropertyValue) : (applyPropRest w (n, v)).gap_row = w.gap_row := by
  unfold applyPropRest
  dsimp only
  split <;> rfl

theorem applyPropRest_keep_gap_col (w : FlatStyle) (n : String)
    (v : PropertyValue) : (applyPropRest w (n, v)).gap_col = w.gap_col := by
  unfold applyPropRest
  dsimp only
  split <;> rfl

theorem applyPropRest_keep_width (w : FlatStyle) (n : String)
    (v : PropertyValue) : (applyPropRest w (n, v)).width = w.width := by
  unfold applyPropRest
  dsimp only
  split <;> rfl

theorem applyPropRest_keep_height (w : FlatStyle) (n : String)
    (v : PropertyValue) : (applyPropRest w (n, v)).height = w.height := by
  unfold applyPropRest
  dsimp only
  split <;> rfl

theorem applyPropRest_keep_min_width (w : FlatStyle) (n : String)
    (v : PropertyValue) : (applyPropRest w (n, v)).min_width = w.min_width := by
  unfold applyPropRest
  dsimp only
  split <;> rfl

theorem applyPropRest_keep_min_height (w : FlatStyle) (n : String)
    (v : PropertyValue) : (applyPropRest w (n, v)).min_height = w.min_height := by
  unfold applyPropRest
  dsimp only
  split <;> rfl

theorem applyPropRest_keep_max_width (w : FlatStyle) (n : String)
    (v : PropertyValue) : (applyPropRest w (n, v)).max_width = w.max_width := by
  unfold applyPropRest
  dsimp only
  split <;> rfl

theorem applyPropRest_keep_max_height (w : FlatStyle) (n : String)
    (v : PropertyValue) : (applyPropRest w (n, v)).max_height = w.max_height := by
  unfold applyPropRest
  dsimp only
  split <;> rfl

theorem applyPropRest_keep_inset_top (w : FlatStyle) (n : String)
    (v : PropertyValue) : (applyPropRest w (n, v)).inset_top = w.inset_top := by
  unfold applyPropRest
  dsimp only
  split <;> rfl

theorem applyPropRest_keep_inset_right (w : FlatStyle) (n : String)
    (v : PropertyValue) : (applyPropRest w (n, v)).inset_right = w.inset_right := by
  unfold applyPropRest
  dsimp only
  split <;> rfl

theorem applyPropRest_frame_inset_bottom (w : FlatStyle) (n : String)
    (v : PropertyValue) (h : n ≠ "inset_bottom") :
    (applyPropRest w (n, v)).inset_bottom = w.inset_bottom := by
  unfold applyPropRest
  dsimp only
  split <;> first | rfl | simp_all

theorem applyPropRest_frame_inset_left (w : FlatStyle) (n : String)
    (v : PropertyValue) (h : n ≠ "inset_left") :
    (applyPropRest w (n, v)).inset_left = w.inset_left := by
  unfold applyPropRest
  dsimp only
  split <;> first | rfl | simp_all

theorem applyPropRest_frame_offset_top (w : FlatStyle) (n : String)
    (v : PropertyValue) (h : n ≠ "offset_top") :
    (applyPropRest w (n, v)).offset_top = w.offset_top := by
  unfold applyPropRest
  dsimp only
  split <;> first | rfl | simp_all

theorem applyPropRest_frame_offset_right (w : FlatStyle) (n : String)
    (v : PropertyValue) (h : n ≠ "offset_right") :
    (applyPropRest w (n, v)).offset_right = w.offset_right := by
  unfold applyPropRest
  dsimp only
  split <;> first | rfl | simp_all

theorem applyPropRest_frame_offset_bottom (w : FlatStyle) (n : String)
    (v : PropertyValue) (h : n ≠ "offset_bottom") :
    (applyPropRest w (n, v)).offset_bottom = w.offset_bottom := by
  unfold applyPropRest
  dsimp only
  split <;> first | rfl | simp_all

theorem applyPropRest_frame_offset_left (w : FlatStyle) (n : String)
    (v : PropertyValue) (h : n ≠ "offset_left") :
    (applyPropRest w (n, v)).offset_left = w.offset_left := by
  unfold applyPropRest
  dsimp only
  split <;> first | rfl | simp_all

theorem applyPropRest_frame_fill_r (w : FlatStyle) (n : String)
    (v : PropertyValue) (h : n ≠ "fill") :
    (applyPropRest w (n, v)).fill_r = w.fill_r := by
  unfold applyPropRest
  dsimp only
  split <;> first | rfl | simp_all

theorem applyPropRest_frame_fill_g (w : FlatStyle) (n : String)
    (v : PropertyValue) (h : n ≠ "fill") :
    (applyPropRest w (n, v)).fill_g = w.fill_g := by
  unfold applyPropRest
  dsimp only
  split <;> first | rfl | simp_all

theorem applyPropRest_frame_fill_b (w : FlatStyle) (n : String)
    (v : PropertyValue) (h : n ≠ "fill") :
    (applyPropRest w (n, v)).fill_b = w.fill_b := by
  unfold applyPropRest
  dsimp only
  split <;> first | rfl | simp_all

theorem applyPropRest_frame_fill_a (w : FlatStyle) (n : String)
    (v : PropertyValue) (h : n ≠ "fill") :
    (applyPropRest w (n, v)).fill_a = w.fill_a := by
  unfold applyPropRest
  dsimp only
  split <;> first | rfl | simp_all

theorem applyPropRest_frame_round (w : FlatStyle) (n : String)
    (v : PropertyValue) (h : n ≠ "round") :
    (applyPropRest w (n, v)).round = w.round := by
  unfold applyPropRest
  dsimp only
  split <;> first | rfl | simp_all

theorem applyPropRest_keep_checksum (w : FlatStyle) (n : String)
    (v : PropertyValue) : (applyPropRest w (n, v)).checksum = w.checksum := by
  unfold applyPropRest
  dsimp only
  split <;> rfl

theorem applyProp_frame_direction (w : FlatStyle) (n : String)
    (v : PropertyValue) (h : n ≠ "direction") :
    (applyProp w (n, v)).direction = w.direction := by
  unfold applyProp
  dsimp only
  split <;> first | rfl | exact applyPropRest_keep_direction w n v | simp_all

theorem applyProp_frame_pack (w : FlatStyle) (n : String)
    (v : PropertyValue) (h : n ≠ "pack") :
    (applyProp w (n, v)).pack = w.pack := by
  unfold applyProp
  dsimp only
  split <;> first | rfl | exact applyPropRest_keep_pack w n v | simp_all

theorem applyProp_frame_align (w : FlatStyle) (n : String)
    (v : PropertyValue) (h : n ≠ "align") :
    (applyProp w (n, v)).align = w.align := by
  unfold applyProp
  dsimp only
  split <;> first | rfl | exact applyPropRest_keep_align w n v | simp_all

theorem applyProp_keep_pad0 (w : FlatStyle) (n : String)
    (v : PropertyValue) : (applyProp w (n, v)).pad0 = w.pad0 := by
  unfold applyProp
  dsimp only
  split <;> first | rfl | exact applyPropRest_keep_pad0 w n v

theorem applyProp_frame_gap_row (w : FlatStyle) (n : String)
    (v : PropertyValue) (h : n ≠ "gap_row") :
    (applyProp w (n, v)).gap_row = w.gap_row := by
  unfold applyProp
  dsimp only
  split <;> first | rfl | exact applyPropRest_keep_gap_row w n v | simp_all

theorem applyProp_frame_gap_col (w : FlatStyle) (n : String)
    (v : PropertyValue) (h : n ≠ "gap_col") :
    (applyProp w (n, v)).gap_col = w.gap_col := by
  unfold applyProp
  dsimp only
  split <;> first | rfl | exact applyPropRest_keep_gap_col w n v | simp_all

theorem applyProp_frame_width (w : FlatStyle) (n : String)
    (v : PropertyValue) (h : n ≠ "width") :
    (applyProp w (n, v)).width = w.width := by
  unfold applyProp
  dsimp only
  split <;> first | rfl | exact applyPropRest_keep_width w n v | simp_all

theorem applyProp_frame_height (w : FlatStyle) (n : String)
    (v : PropertyValue) (h : n ≠ "height") :
    (applyProp w (n, v)).height = w.height := by
  unfold applyProp
  dsimp only
  split <;> first | rfl | exact applyPropRest_keep_height w n v | simp_all

theorem applyProp_keep_min_width (w : FlatStyle) (n : String)
    (v : PropertyValue) : (applyProp w (n, v)).min_width = w.min_width := by
  unfold applyProp
  dsimp only
  split <;> first | rfl | exact applyPropRest_keep_min_width w n v

theorem applyProp_keep_min_height (w : FlatStyle) (n : String)
    (v : PropertyValue) : (applyProp w (n, v)).min_height = w.min_height := by
  unfold applyProp
  dsimp only
  split <;> first | rfl | exact applyPropRest_keep_min_height w n v

theorem applyProp_keep_max_width (w : FlatStyle) (n : String)
    (v : PropertyValue) : (applyProp w (n, v)).max_width = w.max_width := by
  unfold applyProp
  dsimp only
  split <;> first | rfl | exact applyPropRest_keep_max_width w n v

theorem applyProp_keep_max_height (w : FlatStyle) (n : String)
    (v : PropertyValue) : (applyProp w (n, v)).max_height = w.max_height := by
  unfold applyProp
  dsimp only
  split <;> first | rfl | exact applyPropRest_keep_max_height w n v

theorem applyProp_frame_inset_top (w : FlatStyle) (n : String)
    (v : PropertyValue) (h : n ≠ "inset_top") :
    (applyProp w (n, v)).inset_top = w.inset_top := by
  unfold applyProp
  dsimp only
  split <;> first | rfl | exact applyPropRest_keep_inset_top w n v | simp_all

theorem applyProp_frame_inset_right (w : FlatStyle) (n : String)
    (v : PropertyValue) (h : n ≠ "inset_right") :
    (applyProp w (n, v)).inset_right = w.inset_right := by
  unfold applyProp
  dsimp only
  split <;> first | rfl | exact applyPropRest_keep_inset_right w n v | simp_all

theorem applyProp_frame_inset_bottom (w : FlatStyle) (n : String)
    (v : PropertyValue) (h : n ≠ "inset_bottom") :
    (applyProp w (n, v)).inset_bottom = w.inset_bottom := by
  unfold applyProp
  dsimp only
  split <;> first | rfl | exact applyPropRest_frame_inset_bottom w n v h

theorem applyProp_frame_inset_left (w : FlatStyle) (n : String)
    (v : PropertyValue) (h : n ≠ "inset_left") :
    (applyProp w (n, v)).inset_left = w.inset_left := by
  unfold applyProp
  dsimp only
  split <;> first | rfl | exact applyPropRest_frame_inset_left w n v h

theorem applyProp_frame_offset_top (w : FlatStyle) (n : String)
    (v : PropertyValue) (h : n ≠ "offset_top") :
    (applyProp w (n, v)).offset_top = w.offset_top := by
  unfold applyProp
  dsimp only
  split <;> first | rfl | exact applyPropRest_frame_offset_top w n v h

theorem applyProp_frame_offset_right (w : FlatStyle) (n : String)
    (v : PropertyValue) (h : n ≠ "offset_right") :
    (applyProp w (n, v)).offset_right = w.offset_right := by
  unfold applyProp
  dsimp only
  split <;> first | rfl | exact applyPropRest_frame_offset_right w n v h

theorem applyProp_frame_offset_bottom (w : FlatStyle) (n : String)
    (v : PropertyValue) (h : n ≠ "offset_bottom") :
    (applyProp w (n, v)).offset_bottom = w.offset_bottom := by
  unfold applyProp
  dsimp only
  split <;> first | rfl | exact applyPropRest_frame_offset_bottom w n v h

theorem applyProp_frame_offset_left (w : FlatStyle) (n : String)
    (v : PropertyValue) (h : n ≠ "offset_left") :
    (applyProp w (n, v)).offset_left = w.offset_left := by
  unfold applyProp
  dsimp only
  split <;> first | rfl | exact applyPropRest_frame_offset_left w n v h

theorem applyProp_frame_fill_r (w : FlatStyle) (n : String)
    (v : PropertyValue) (h : n ≠ "fill") :
    (applyProp w (n, v)).fill_r = w.fill_r := by
  unfold applyProp
  dsimp only
  split <;> first | rfl | exact applyPropRest_frame_fill_r w n v h

theorem applyProp_frame_fill_g (w : FlatStyle) (n : String)
    (v : PropertyValue) (h : n ≠ "fill") :
    (applyProp w (n, v)).fill_g = w.fill_g := by
  unfold applyProp
  dsimp only
  split <;> first | rfl | exact applyPropRest_frame_fill_g w n v h

theorem applyProp_frame_fill_b (w : FlatStyle) (n : String)
    (v : PropertyValue) (h : n ≠ "fill") :
    (applyProp w (n, v)).fill_b = w.fill_b := by
  unfold applyProp
  dsimp only
  split <;> first | rfl | exact applyPropRest_frame_fill_b w n v h

theorem applyProp_frame_fill_a (w : FlatStyle) (n : String)
    (v : PropertyValue) (h : n ≠ "fill") :
    (applyProp w (n, v)).fill_a = w.fill_a := by
  unfold applyProp
  dsimp only
  split <;> first | rfl | exact applyPropRest_frame_fill_a w n v h

theorem applyProp_frame_round (w : FlatStyle) (n : String)
    (v : PropertyValue) (h : n ≠ "round") :
    (applyProp w (n, v)).round = w.round := by
  unfold applyProp
  dsimp only
  split <;> first | rfl | exact applyPropRest_frame_round w n v h

theorem applyProp_keep_checksum (w : FlatStyle) (n : String)
    (v : PropertyValue) : (applyProp w (n, v)).checksum = w.checksum := by
  unfold applyProp
  dsimp only
  split <;> first | rfl | exact applyPropRest_keep_checksum w n v

theorem applyProp_write_direction (w : FlatStyle) (v : PropertyValue) :
    (applyProp w ("direction", v)).direction
      = (match v with | PropertyValue.Direction x => x.toNat | _ => w.direction) := by
  rcases v <;> rfl

theorem applyProp_write_pack (w : FlatStyle) (v : PropertyValue) :
    (applyProp w ("pack", v)).pack
      = (match v with | PropertyValue.Pack x => x.toNat | _ => w.pack) := by
  rcases v <;> rfl

theorem applyProp_write_align (w : FlatStyle) (v : PropertyValue) :
    (applyProp w ("align", v)).align
      = (match v with | PropertyValue.Align x => x.toNat | _ => w.align) := by
  rcases v <;> rfl

theorem applyProp_write_gap_row (w : FlatStyle) (v : PropertyValue) :
    (applyProp w ("gap_row", v)).gap_row
      = (match v with | PropertyValue.Float x => x | _ => w.gap_row) := by
  rcases v <;> rfl

theorem applyProp_write_gap_col (w : FlatStyle) (v : PropertyValue) :
    (applyProp w ("gap_col", v)).gap_col
      = (match v with | PropertyValue.Float x => x | _ => w.gap_col) := by
  rcases v <;> rfl

theorem applyProp_write_width (w : FlatStyle) (v : PropertyValue) :
    (applyProp w ("width", v)).width
      = (match v with | PropertyValue.Float x => x | _ => w.width) := by
  rcases v <;> rfl

theorem applyProp_write_height (w : FlatStyle) (v : PropertyValue) :
    (applyProp w ("height", v)).height
      = (match v with | PropertyValue.Float x => x | _ => w.height) := by
  rcases v <;> rfl

theorem applyProp_write_inset_top (w : FlatStyle) (v : PropertyValue) :
    (applyProp w ("inset_top", v)).inset_top
      = (match v with | PropertyValue.Float x => x | _ => w.inset_top) := by
  rcases v <;> rfl

theorem applyProp_write_inset_right (w : FlatStyle) (v : PropertyValue) :
    (applyProp w ("inset_right", v)).inset_right
      = (match v with | PropertyValue.Float x => x | _ => w.inset_right) := by
  rcases v <;> rfl

theorem applyProp_write_inset_bottom (w : FlatStyle) (v : PropertyValue) :
    (applyProp w ("inset_bottom", v)).inset_bottom
      = (match v with | PropertyValue.Float x => x | _ => w.inset_bottom) := by
  rcases v <;> rfl

theorem applyProp_write_inset_left (w : FlatStyle) (v : PropertyValue) :
    (applyProp w ("inset_left", v)).inset_left
      = (match v with | PropertyValue.Float x => x | _ => w.inset_left) := by
  rcases v <;> rfl

theorem applyProp_write_offset_top (w : FlatStyle) (v : PropertyValue) :
    (applyProp w ("offset_top", v)).offset_top
      = (match v with | PropertyValue.Float x => x | _ => w.offset_top) := by
  rcases v <;> rfl

theorem applyProp_write_offset_right (w : FlatStyle) (v : PropertyValue) :
    (applyProp w ("offset_right", v)).offset_right
      = (match v with | PropertyValue.Float x => x | _ => w.offset_right) := by
  rcases v <;> rfl

theorem applyProp_write_offset_bottom (w : FlatStyle) (v : PropertyValue) :
    (applyProp w ("offset_bottom", v)).offset_bottom
      = (match v with | PropertyValue.Float x => x | _ => w.offset_bottom) := by
  rcases v <;> rfl

theorem applyProp_write_offset_left (w : FlatStyle) (v : PropertyValue) :
    (applyProp w ("offset_left", v)).offset_left
      = (match v with | PropertyValue.Float x => x | _ => w.offset_left) := by
  rcases v <;> rfl

theorem applyProp_write_fill_r (w : FlatStyle) (v : PropertyValue) :
    (applyProp w ("fill", v)).fill_r
      = (match v with | PropertyValue.Color x => x.r | _ => w.fill_r) := by
  rcases v <;> rfl

theorem applyProp_write_fill_g (w : FlatStyle) (v : PropertyValue) :
    (applyProp w ("fill", v)).fill_g
      = (match v with | PropertyValue.Color x => x.g | _ => w.fill_g) := by
  rcases v <;> rfl

theorem applyProp_write_fill_b (w : FlatStyle) (v : PropertyValue) :
    (applyProp w ("fill", v)).fill_b
      = (match v with | PropertyValue.Color x => x.b | _ => w.fill_b) := by
  rcases v <;> rfl

theorem applyProp_write_fill_a (w : FlatStyle) (v : PropertyValue) :
    (applyProp w ("fill", v)).fill_a
      = (match v with | PropertyValue.Color x => x.a | _ => w.fill_a) := by
  rcases v <;> rfl

theorem applyProp_write_round (w : FlatStyle) (v : PropertyValue) :
    (applyProp w ("round", v)).round
      = (match v with | PropertyValue.Float x => x | _ => w.round) := by
  rcases v <;> rfl

/-- Commutation of two applyProp steps with distinct names, observed through
one field projection F whose only writing name is m. -/
theorem applyProp_comm_on_field (F : FlatStyle → Nat) (m : String)
    (W : PropertyValue → Nat → Nat)
    (hframe : ∀ w n v, n ≠ m → F (applyProp w (n, v)) = F w)
    (hwrite : ∀ w v, F (applyProp w (m, v)) = W v (F w))
    (z : FlatStyle) (n1 n2 : String) (v1 v2 : PropertyValue)
    (h : n1 ≠ n2) :
    F (applyProp (applyProp z (n1, v1)) (n2, v2))
      = F (applyProp (applyProp z (n2, v2)) (n1, v1)) := by
  by_cases h1 : n1 = m
  · have h2 : n2 ≠ m := fun hh => h (h1.trans hh.symm)
    have hf2 : ∀ w, F (applyProp w (n2, v2)) = F w := fun w =>
      hframe w n2 v2 h2
    rw [h1]
    simp only [hwrite, hf2]
  · by_cases h2 : n2 = m
    · have hf1 : ∀ w, F (applyProp w (n1, v1)) = F w := fun w =>
        hframe w n1 v1 h1
      rw [h2]
      simp only [hwrite, hf1]
    · have hf1 : ∀ w, F (applyProp w (n1, v1)) = F w := fun w =>
        hframe w n1 v1 h1
      have hf2 : ∀ w, F (applyProp w (n2, v2)) = F w := fun w =>
        hframe w n2 v2 h2
      simp only [hf1, hf2]

/-- Commutation observed through a field projection no name writes. -/
theorem applyProp_comm_const (F : FlatStyle → Nat)
    (hkeep : ∀ w n v, F (applyProp w (n, v)) = F w)
    (z : FlatStyle) (n1 n2 : String) (v1 v2 : PropertyValue) :
    F (applyProp (applyProp z (n1, v1)) (n2, v2))
      = F (applyProp (applyProp z (n2, v2)) (n1, v1)) := by
  simp only [hkeep]

/-- Two applyProp steps with distinct property names commute. -/
theorem applyProp_comm (z : FlatStyle) (a b : String × PropertyValue)
    (h : a.1 ≠ b.1) :
    applyProp (applyProp z a) b = applyProp (applyProp z b) a := by
  obtain ⟨n1, v1⟩ := a
  obtain ⟨n2, v2⟩ := b
  simp only [ne_eq] at h
  apply FlatStyle.ext

  · exact applyProp_comm_on_field FlatStyle.direction "direction"
      (fun v w0 => match v with | PropertyValue.Direction x => x.toNat | _ => w0)
      applyProp_frame_direction applyProp_write_direction z n1 n2 v1 v2 h

  · exact applyProp_comm_on_field FlatStyle.pack "pack"
      (fun v w0 => match v with | PropertyValue.Pack x => x.toNat | _ => w0)
      applyProp_frame_pack applyProp_write_pack z n1 n2 v1 v2 h

  · exact applyProp_comm_on_field FlatStyle.align "align"
      (fun v w0 => match v with | PropertyValue.Align x => x.toNat | _ => w0)
      applyProp_frame_align applyProp_write_align z n1 n2 v1 v2 h

  · exact applyProp_comm_const FlatStyle.pad0 applyProp_keep_pad0
      z n1 n2 v1 v2

  · exact applyProp_comm_on_field FlatStyle.gap_row "gap_row"
      (fun v w0 => match v with | PropertyValue.Float x => x | _ => w0)
      applyProp_frame_gap_row applyProp_write_gap_row z n1 n2 v1 v2 h

  · exact applyProp_comm_on_field FlatStyle.gap_col "gap_col"
      (fun v w0 => match v with | PropertyValue.Float x => x | _ => w0)
      applyProp_frame_gap_col applyProp_write_gap_col z n1 n2 v1 v2 h

  · exact applyProp_comm_on_field FlatStyle.width "width"
      (fun v w0 => match v with | PropertyValue.Float x => x | _ => w0)
      applyProp_frame_width applyProp_write_width z n1 n2 v1 v2 h

  · exact applyProp_comm_on_field FlatStyle.height "height"
      (fun v w0 => match v with | PropertyValue.Float x => x | _ => w0)
      applyProp_frame_height applyProp_write_height z n1 n2 v1 v2 h

  · exact applyProp_comm_const FlatStyle.min_width applyProp_keep_min_width
      z n1 n2 v1 v2

  · exact applyProp_comm_const FlatStyle.min_height applyProp_keep_min_height
      z n1 n2 v1 v2

  · exact applyProp_comm_const FlatStyle.max_width applyProp_keep_max_width
      z n1 n2 v1 v2

  · exact applyProp_comm_const FlatStyle.max_height applyProp_keep_max_height
      z n1 n2 v1 v2

  · exact applyProp_comm_on_field FlatStyle.inset_top "inset_top"
      (fun v w0 => match v with | PropertyValue.Float x => x | _ => w0)
      applyProp_frame_inset_top applyProp_write_inset_top z n1 n2 v1 v2 h

  · exact applyProp_comm_on_field FlatStyle.inset_right "inset_right"
      (fun v w0 => match v with | PropertyValue.Float x => x | _ => w0)
      applyProp_frame_inset_right applyProp_write_inset_right z n1 n2 v1 v2 h

  · exact applyProp_comm_on_field FlatStyle.inset_bottom "inset_bottom"
      (fun v w0 => match v with | PropertyValue.Float x => x | _ => w0)
      applyProp_frame_inset_bottom applyProp_write_inset_bottom z n1 n2 v1 v2 h

  · exact applyProp_comm_on_field FlatStyle.inset_left "inset_left"
      (fun v w0 => match v with | PropertyValue.Float x => x | _ => w0)
      applyProp_frame_inset_left applyProp_write_inset_left z n1 n2 v1 v2 h

  · exact applyProp_comm_on_field FlatStyle.offset_top "offset_top"
      (fun v w0 => match v with | PropertyValue.Float x => x | _ => w0)
      applyProp_frame_offset_top applyProp_write_offset_top z n1 n2 v1 v2 h

  · exact applyProp_comm_on_field FlatStyle.offset_right "offset_right"
      (fun v w0 => match v with | PropertyValue.Float x => x | _ => w0)
      applyProp_frame_offset_right applyProp_write_offset_right z n1 n2 v1 v2 h

  · exact applyProp_comm_on_field FlatStyle.offset_bottom "offset_bottom"
      (fun v w0 => match v with | PropertyValue.Float x => x | _ => w0)
      applyProp_frame_offset_bottom applyProp_write_offset_bottom z n1 n2 v1 v2 h

  · exact applyProp_comm_on_field FlatStyle.offset_left "offset_left"
      (fun v w0 => match v with | PropertyValue.Float x => x | _ => w0)
      applyProp_frame_offset_left applyProp_write_offset_left z n1 n2 v1 v2 h

  · exact applyProp_comm_on_field FlatStyle.fill_r "fill"
      (fun v w0 => match v with | PropertyValue.Color x => x.r | _ => w0)
      applyProp_frame_fill_r applyProp_write_fill_r z n1 n2 v1 v2 h

  · exact applyProp_comm_on_field FlatStyle.fill_g "fill"
      (fun v w0 => match v with | PropertyValue.Color x => x.g | _ => w0)
      applyProp_frame_fill_g applyProp_write_fill_g z n1 n2 v1 v2 h

  · exact applyProp_comm_on_field FlatStyle.fill_b "fill"
      (fun v w0 => match v with | PropertyValue.Color x => x.b | _ => w0)
      applyProp_frame_fill_b applyProp_write_fill_b z n1 n2 v1 v2 h

  · exact applyProp_comm_on_field FlatStyle.fill_a "fill"
      (fun v w0 => match v with | PropertyValue.Color x => x.a | _ => w0)
      applyProp_frame_fill_a applyProp_write_fill_a z n1 n2 v1 v2 h

  · exact applyProp_comm_on_field FlatStyle.round "round"
      (fun v w0 => match v with | PropertyValue.Float x => x | _ => w0)
      applyProp_frame_round applyProp_write_round z n1 n2 v1 v2 h

  · exact applyProp_comm_const FlatStyle.checksum applyProp_keep_checksum
      z n1 n2 v1 v2

/-- The dead parent lookup: find with an always-false predicate yields
nothing on any list. -/
theorem find?_false (l : List FlatStyle) : l.find? (fun _ => false) = none := by
  induction l with
  | nil => rfl
  | cons a t ih => simp [List.find?, ih]

/-- Equality of StyleDefs up to the iteration order of the properties
HashMap: same id, same parent, property lists that are permutations of one
another with pairwise distinct names (the HashMap key invariant). -/
def DefEquiv (d1 d2 : StyleDef) : Prop :=
  d1.id = d2.id ∧ d1.parent_id = d2.parent_id ∧
  d1.properties.Perm d2.properties ∧ (d1.properties.map Prod.fst).Nodup

/-- Folding applyProp is invariant under reordering of a distinct-key
property list. -/
theorem foldl_applyProp_perm (l1 l2 : List (String × PropertyValue))
    (hperm : l1.Perm l2) (hnodup : (l1.map Prod.fst).Nodup)
    (init : FlatStyle) : l1.foldl applyProp init = l2.foldl applyProp init := by
  refine hperm.foldl_eq' ?_ init
  intro x hx y hy z
  by_cases hxy : x = y
  · rw [hxy]
  · have hne : x.1 ≠ y.1 := by
      intro h1
      exact hxy (List.inj_on_of_nodup_map hnodup hx hy h1)
    exact applyProp_comm z x y hne

/-- Flattening one definition only depends on the definition up to property
iteration order. -/
theorem flattenDef_congr (acc : List FlatStyle) (d1 d2 : StyleDef)
    (hpid : d1.parent_id = d2.parent_id)
    (hperm : d1.properties.Perm d2.properties)
    (hnodup : (d1.properties.map Prod.fst).Nodup) :
    flattenDef acc d1 = flattenDef acc d2 := by
  simp only [flattenDef, hpid,
    foldl_applyProp_perm d1.properties d2.properties hperm hnodup]

/-- The flattening pass maps DefEquiv definition lists to equal outputs. -/
theorem flattenLoop_congr (l1 l2 : List StyleDef)
    (h : List.Forall₂ DefEquiv l1 l2) :
    ∀ acc : List FlatStyle, flattenLoop l1 acc = flattenLoop l2 acc := by
  induction h with
  | nil => intro acc; rfl
  | cons hd tl ih =>
    intro acc
    show flattenLoop _ (acc ++ [flattenDef acc _])
      = flattenLoop _ (acc ++ [flattenDef acc _])
    rw [flattenDef_congr acc _ _ hd.2.1 hd.2.2.1 hd.2.2.2]
    exact ih _

/-- C4: flattening is deterministic.  Two StyleTables whose definitions agree
up to the (unspecified) HashMap iteration order of each property map produce
identical flattened vectors, checksums included: each recognized property
name writes its own FlatStyle field, so the fold is order-independent.  In
particular flattening the same unmutated table twice gives identical results
regardless of the order iteration happens to take. -/
theorem flatten_deterministic (st1 st2 : StyleTable)
    (h : List.Forall₂ DefEquiv st1.definitions st2.definitions) :
    (st1.flatten).flattened = (st2.flatten).flattened := by
  show flattenLoop st1.definitions [] = flattenLoop st2.definitions []
  exact flattenLoop_congr _ _ h []

/-- Style definition with width and height given in one order. -/
def c4Style1 : StyleDef :=
  { id := 1, properties := [("width", .Float 7), ("height", .Float 9)] }

/-- The same style definition with the properties iterated in the other
order. -/
def c4Style2 : StyleDef :=
  { id := 1, properties := [("height", .Float 9), ("width", .Float 7)] }

/-- Concrete instantiation of flatten_deterministic on the two iteration
orders of the same two-property style. -/
theorem flatten_deterministic_witness :
    (StyleTable.flatten { definitions := [c4Style1] }).flattened
      = (StyleTable.flatten { definitions := [c4Style2] }).flattened :=
  flatten_deterministic { definitions := [c4Style1] }
    { definitions := [c4Style2] }
    (List.Forall₂.cons ⟨rfl, rfl, by decide, by decide⟩ List.Forall₂.nil)

/-! Claim C8: checksum sensitivity.  The rolling 31-hash over the 76
pre-checksum bytes distinguishes any two values of a single-byte field, but
multi-byte (f32) fields can collide: changing width's bit pattern from 1 to
7936 = 31 * 256 shifts a unit from one byte position to an adjacent one with
exactly the weight ratio 31 and leaves the hash unchanged. -/

theorem preBytes_length (s : FlatStyle) : s.preBytes.length = 76 := by
  simp [FlatStyle.preBytes, lb4]

/-- The checksum hash runs exactly over the pre-checksum bytes. -/
theorem compute_style_checksum_eq (s : FlatStyle) :
    compute_style_checksum s = s.preBytes.foldl hashStep 0 := by
  unfold compute_style_checksum FlatStyle.bytes
  rw [List.length_append, preBytes_length,
    show (lb8 s.checksum).length = 8 from by simp [lb8],
    show (76 : Nat) + 8 - 8 = 76 from rfl,
    show (76 : Nat) = s.preBytes.length from (preBytes_length s).symm,
    List.take_left]

theorem hashStep_lt (h b : Nat) : hashStep h b < 18446744073709551616 :=
  Nat.mod_lt _ (by norm_num)

/-- The hash step is injective in the state below 2^64, for a fixed byte. -/
theorem hashStep_state_inj (b h1 h2 : Nat)
    (hb1 : h1 < 18446744073709551616) (hb2 : h2 < 18446744073709551616)
    (hne : h1 ≠ h2) : hashStep h1 b ≠ hashStep h2 b := by
  intro heq
  unfold hashStep at heq
  have hmod : h1 * 31 ≡ h2 * 31 [MOD 18446744073709551616] :=
    Nat.ModEq.add_right_cancel' b heq
  have h31 : (31 : Nat) * h1 ≡ 31 * h2 [MOD 18446744073709551616] := by
    rwa [Nat.mul_comm h1 31, Nat.mul_comm h2 31] at hmod
  have hco : Nat.gcd 18446744073709551616 31 = 1 := by norm_num
  have hx : h1 % 18446744073709551616 = h2 % 18446744073709551616 :=
    Nat.ModEq.cancel_left_of_coprime hco h31
  clear heq hmod h31 hco
  omega

/-- Folding the hash from two different sub-2^64 states over the same bytes
never collides. -/
theorem foldl_hashStep_inj (l : List Nat) : ∀ h1 h2 : Nat,
    h1 < 18446744073709551616 → h2 < 18446744073709551616 → h1 ≠ h2 →
    l.foldl hashStep h1 ≠ l.foldl hashStep h2 := by
  induction l with
  | nil =>
    intro h1 h2 _ _ hne
    simpa using hne
  | cons b t ih =>
    intro h1 h2 hb1 hb2 hne
    simp only [List.foldl_cons]
    exact ih _ _ (hashStep_lt _ _) (hashStep_lt _ _)
      (hashStep_state_inj b h1 h2 hb1 hb2 hne)

/-- Changing exactly one byte of the hashed stream changes the hash. -/
theorem hash_ne_of_single_byte (pre suf : List Nat) (b b2 : Nat)
    (hb : b < 18446744073709551616) (hb2 : b2 < 18446744073709551616)
    (hne : b ≠ b2) :
    (pre ++ b :: suf).foldl hashStep 0 ≠ (pre ++ b2 :: suf).foldl hashStep 0 := by
  rw [List.foldl_append, List.foldl_append]
  simp only [List.foldl_cons]
  apply foldl_hashStep_inj suf _ _ (hashStep_lt _ _) (hashStep_lt _ _)
  intro heq
  unfold hashStep at heq
  have hmod : b ≡ b2 [MOD 18446744073709551616] :=
    Nat.ModEq.add_left_cancel' (List.foldl hashStep 0 pre * 31) heq
  have hx : b % 18446744073709551616 = b2 % 18446744073709551616 := hmod
  clear heq hmod
  omega

/-- The single-byte fields of a FlatStyle. -/
inductive ByteField where
  | direction | pack | align | pad0 | fill_r | fill_g | fill_b | fill_a
  deriving DecidableEq, Repr

def ByteField.get (s : FlatStyle) : ByteField → Nat
  | .direction => s.direction
  | .pack => s.pack
  | .align => s.align
  | .pad0 => s.pad0
  | .fill_r => s.fill_r
  | .fill_g => s.fill_g
  | .fill_b => s.fill_b
  | .fill_a => s.fill_a

def ByteField.set (s : FlatStyle) : ByteField → Nat → FlatStyle
  | .direction, v => { s with direction := v }
  | .pack, v => { s with pack := v }
  | .align, v => { s with align := v }
  | .pad0, v => { s with pad0 := v }
  | .fill_r, v => { s with fill_r := v }
  | .fill_g, v => { s with fill_g := v }
  | .fill_b, v => { s with fill_b := v }
  | .fill_a, v => { s with fill_a := v }

/-- C8 (amended): recomputing the checksum after changing any one single-byte
field (direction, pack, align, the pad byte, or a fill channel) to a
different byte value always yields a different checksum. -/
theorem checksum_single_byte_field_sensitive (s : FlatStyle) (f : ByteField)
    (v : Nat) (hv : v < 256) (hold : ByteField.get s f < 256)
    (hne : v ≠ ByteField.get s f) :
    compute_style_checksum (ByteField.set s f v) ≠ compute_style_checksum s := by
  rw [compute_style_checksum_eq, compute_style_checksum_eq]
  cases f
  case direction =>
    simp only [ByteField.get] at hold hne
    exact hash_ne_of_single_byte
      ([] : List Nat)
      [s.pack % 256, s.align % 256, s.pad0 % 256, s.gap_row % 256,
    s.gap_row / 256 % 256, s.gap_row / 65536 % 256,
    s.gap_row / 16777216 % 256, s.gap_col % 256, s.gap_col / 256 % 256,
    s.gap_col / 65536 % 256, s.gap_col / 16777216 % 256, s.width % 256,
    s.width / 256 % 256, s.width / 65536 % 256, s.width / 16777216 % 256,
    s.height % 256, s.height / 256 % 256, s.height / 65536 % 256,
    s.height / 16777216 % 256, s.min_width % 256, s.min_width / 256 % 256,
    s.min_width / 65536 % 256, s.min_width / 16777216 % 256,
    s.min_height % 256, s.min_height / 256 % 256,
    s.min_height / 65536 % 256, s.min_height / 16777216 % 256,
    s.max_width % 256, s.max_width / 256 % 256, s.max_width / 65536 % 256,
    s.max_width / 16777216 % 256, s.max_height % 256,
    s.max_height / 256 % 256, s.max_height / 65536 % 256,
    s.max_height / 16777216 % 256, s.inset_top % 256,
    s.inset_top / 256 % 256, s.inset_top / 65536 % 256,
    s.inset_top / 16777216 % 256, s.inset_right % 256,
    s.inset_right / 256 % 256, s.inset_right / 65536 % 256,
    s.inset_right / 16777216 % 256, s.inset_bottom % 256,
    s.inset_bottom / 256 % 256, s.inset_bottom / 65536 % 256,
    s.inset_bottom / 16777216 % 256, s.inset_left % 256,
    s.inset_left / 256 % 256, s.inset_left / 65536 % 256,
    s.inset_left / 16777216 % 256, s.offset_top % 256,
    s.offset_top / 256 % 256, s.offset_top / 65536 % 256,
    s.offset_top / 16777216 % 256, s.offset_right % 256,
    s.offset_right / 256 % 256, s.offset_right / 65536 % 256,
    s.offset_right / 16777216 % 256, s.offset_bottom % 256,
    s.offset_bottom / 256 % 256, s.offset_bottom / 65536 % 256,
    s.offset_bottom / 16777216 % 256, s.offset_left % 256,
    s.offset_left / 256 % 256, s.offset_left / 65536 % 256,
    s.offset_left / 16777216 % 256, s.fill_r % 256, s.fill_g % 256,
    s.fill_b % 256, s.fill_a % 256, s.round % 256, s.round / 256 % 256,
    s.round / 65536 % 256, s.round / 16777216 % 256]
      (v % 256) (s.direction % 256) (by omega) (by omega)
      (by rw [Nat.mod_eq_of_lt hv, Nat.mod_eq_of_lt hold]; exact hne)
  case pack =>
    simp only [ByteField.get] at hold hne
    exact hash_ne_of_single_byte
      [s.direction % 256]
      [s.align % 256, s.pad0 % 256, s.gap_row % 256, s.gap_row / 256 % 256,
    s.gap_row / 65536 % 256, s.gap_row / 16777216 % 256, s.gap_col % 256,
    s.gap_col / 256 % 256, s.gap_col / 65536 % 256,
    s.gap_col / 16777216 % 256, s.width % 256, s.width / 256 % 256,
    s.width / 65536 % 256, s.width / 16777216 % 256, s.height % 256,
    s.height / 256 % 256, s.height / 65536 % 256,
    s.height / 16777216 % 256, s.min_width % 256, s.min_width / 256 % 256,
    s.min_width / 65536 % 256, s.min_width / 16777216 % 256,
    s.min_height % 256, s.min_height / 256 % 256,
    s.min_height / 65536 % 256, s.min_height / 16777216 % 256,
    s.max_width % 256, s.max_width / 256 % 256, s.max_width / 65536 % 256,
    s.max_width / 16777216 % 256, s.max_height % 256,
    s.max_height / 256 % 256, s.max_height / 65536 % 256,
    s.max_height / 16777216 % 256, s.inset_top % 256,
    s.inset_top / 256 % 256, s.inset_top / 65536 % 256,
    s.inset_top / 16777216 % 256, s.inset_right % 256,
    s.inset_right / 256 % 256, s.inset_right / 65536 % 256,
    s.inset_right / 16777216 % 256, s.inset_bottom % 256,
    s.inset_bottom / 256 % 256, s.inset_bottom / 65536 % 256,
    s.inset_bottom / 16777216 % 256, s.inset_left % 256,
    s.inset_left / 256 % 256, s.inset_left / 65536 % 256,
    s.inset_left / 16777216 % 256, s.offset_top % 256,
    s.offset_top / 256 % 256, s.offset_top / 65536 % 256,
    s.offset_top / 16777216 % 256, s.offset_right % 256,
    s.offset_right / 256 % 256, s.offset_right / 65536 % 256,
    s.offset_right / 16777216 % 256, s.offset_bottom % 256,
    s.offset_bottom / 256 % 256, s.offset_bottom / 65536 % 256,
    s.offset_bottom / 16777216 % 256, s.offset_left % 256,
    s.offset_left / 256 % 256, s.offset_left / 65536 % 256,
    s.offset_left / 16777216 % 256, s.fill_r % 256, s.fill_g % 256,
    s.fill_b % 256, s.fill_a % 256, s.round % 256, s.round / 256 % 256,
    s.round / 65536 % 256, s.round / 16777216 % 256]
      (v % 256) (s.pack % 256) (by omega) (by omega)
      (by rw [Nat.mod_eq_of_lt hv, Nat.mod_eq_of_lt hold]; exact hne)
  case align =>
    simp only [ByteField.get] at hold hne
    exact hash_ne_of_single_byte
      [s.direction % 256, s.pack % 256]
      [s.pad0 % 256, s.gap_row % 256, s.gap_row / 256 % 256,
    s.gap_row / 65536 % 256, s.gap_row / 16777216 % 256, s.gap_col % 256,
    s.gap_col / 256 % 256, s.gap_col / 65536 % 256,
    s.gap_col / 16777216 % 256, s.width % 256, s.width / 256 % 256,
    s.width / 65536 % 256, s.width / 16777216 % 256, s.height % 256,
    s.height / 256 % 256, s.height / 65536 % 256,
    s.height / 16777216 % 256, s.min_width % 256, s.min_width / 256 % 256,
    s.min_width / 65536 % 256, s.min_width / 16777216 % 256,
    s.min_height % 256, s.min_height / 256 % 256,
    s.min_height / 65536 % 256, s.min_height / 16777216 % 256,
    s.max_width % 256, s.max_width / 256 % 256, s.max_width / 65536 % 256,
    s.max_width / 16777216 % 256, s.max_height % 256,
    s.max_height / 256 % 256, s.max_height / 65536 % 256,
    s.max_height / 16777216 % 256, s.inset_top % 256,
    s.inset_top / 256 % 256, s.inset_top / 65536 % 256,
    s.inset_top / 16777216 % 256, s.inset_right % 256,
    s.inset_right / 256 % 256, s.inset_right / 65536 % 256,
    s.inset_right / 16777216 % 256, s.inset_bottom % 256,
    s.inset_bottom / 256 % 256, s.inset_bottom / 65536 % 256,
    s.inset_bottom / 16777216 % 256, s.inset_left % 256,
    s.inset_left / 256 % 256, s.inset_left / 65536 % 256,
    s.inset_left / 16777216 % 256, s.offset_top % 256,
    s.offset_top / 256 % 256, s.offset_top / 65536 % 256,
    s.offset_top / 16777216 % 256, s.offset_right % 256,
    s.offset_right / 256 % 256, s.offset_right / 65536 % 256,
    s.offset_right / 16777216 % 256, s.offset_bottom % 256,
    s.offset_bottom / 256 % 256, s.offset_bottom / 65536 % 256,
    s.offset_bottom / 16777216 % 256, s.offset_left % 256,
    s.offset_left / 256 % 256, s.offset_left / 65536 % 256,
    s.offset_left / 16777216 % 256, s.fill_r % 256, s.fill_g % 256,
    s.fill_b % 256, s.fill_a % 256, s.round % 256, s.round / 256 % 256,
    s.round / 65536 % 256, s.round / 16777216 % 256]
      (v % 256) (s.align % 256) (by omega) (by omega)
      (by rw [Nat.mod_eq_of_lt hv, Nat.mod_eq_of_lt hold]; exact hne)
  case pad0 =>
    simp only [ByteField.get] at hold hne
    exact hash_ne_of_single_byte
      [s.direction % 256, s.pack % 256, s.align % 256]
      [s.gap_row % 256, s.gap_row / 256 % 256, s.gap_row / 65536 % 256,
    s.gap_row / 16777216 % 256, s.gap_col % 256, s.gap_col / 256 % 256,
    s.gap_col / 65536 % 256, s.gap_col / 16777216 % 256, s.width % 256,
    s.width / 256 % 256, s.width / 65536 % 256, s.width / 16777216 % 256,
    s.height % 256, s.height / 256 % 256, s.height / 65536 % 256,
    s.height / 16777216 % 256, s.min_width % 256, s.min_width / 256 % 256,
    s.min_width / 65536 % 256, s.min_width / 16777216 % 256,
    s.min_height % 256, s.min_height / 256 % 256,
    s.min_height / 65536 % 256, s.min_height / 16777216 % 256,
    s.max_width % 256, s.max_width / 256 % 256, s.max_width / 65536 % 256,
    s.max_width / 16777216 % 256, s.max_height % 256,
    s.max_height / 256 % 256, s.max_height / 65536 % 256,
    s.max_height / 16777216 % 256, s.inset_top % 256,
    s.inset_top / 256 % 256, s.inset_top / 65536 % 256,
    s.inset_top / 16777216 % 256, s.inset_right % 256,
    s.inset_right / 256 % 256, s.inset_right / 65536 % 256,
    s.inset_right / 16777216 % 256, s.inset_bottom % 256,
    s.inset_bottom / 256 % 256, s.inset_bottom / 65536 % 256,
    s.inset_bottom / 16777216 % 256, s.inset_left % 256,
    s.inset_left / 256 % 256, s.inset_left / 65536 % 256,
    s.inset_left / 16777216 % 256, s.offset_top % 256,
    s.offset_top / 256 % 256, s.offset_top / 65536 % 256,
    s.offset_top / 16777216 % 256, s.offset_right % 256,
    s.offset_right / 256 % 256, s.offset_right / 65536 % 256,
    s.offset_right / 16777216 % 256, s.offset_bottom % 256,
    s.offset_bottom / 256 % 256, s.offset_bottom / 65536 % 256,
    s.offset_bottom / 16777216 % 256, s.offset_left % 256,
    s.offset_left / 256 % 256, s.offset_left / 65536 % 256,
    s.offset_left / 16777216 % 256, s.fill_r % 256, s.fill_g % 256,
    s.fill_b % 256, s.fill_a % 256, s.round % 256, s.round / 256 % 256,
    s.round / 65536 % 256, s.round / 16777216 % 256]
      (v % 256) (s.pad0 % 256) (by omega) (by omega)
      (by rw [Nat.mod_eq_of_lt hv, Nat.mod_eq_of_lt hold]; exact hne)
  case fill_r =>
    simp only [ByteField.get] at hold hne
    exact hash_ne_of_single_byte
      [s.direction % 256, s.pack % 256, s.align % 256, s.pad0 % 256,
    s.gap_row % 256, s.gap_row / 256 % 256, s.gap_row / 65536 % 256,
    s.gap_row / 16777216 % 256, s.gap_col % 256, s.gap_col / 256 % 256,
    s.gap_col / 65536 % 256, s.gap_col / 16777216 % 256, s.width % 256,
    s.width / 256 % 256, s.width / 65536 % 256, s.width / 16777216 % 256,
    s.height % 256, s.height / 256 % 256, s.height / 65536 % 256,
    s.height / 16777216 % 256, s.min_width % 256, s.min_width / 256 % 256,
    s.min_width / 65536 % 256, s.min_width / 16777216 % 256,
    s.min_height % 256, s.min_height / 256 % 256,
    s.min_height / 65536 % 256, s.min_height / 16777216 % 256,
    s.max_width % 256, s.max_width / 256 % 256, s.max_width / 65536 % 256,
    s.max_width / 16777216 % 256, s.max_height % 256,
    s.max_height / 256 % 256, s.max_height / 65536 % 256,
    s.max_height / 16777216 % 256, s.inset_top % 256,
    s.inset_top / 256 % 256, s.inset_top / 65536 % 256,
    s.inset_top / 16777216 % 256, s.inset_right % 256,
    s.inset_right / 256 % 256, s.inset_right / 65536 % 256,
    s.inset_right / 16777216 % 256, s.inset_bottom % 256,
    s.inset_bottom / 256 % 256, s.inset_bottom / 65536 % 256,
    s.inset_bottom / 16777216 % 256, s.inset_left % 256,
    s.inset_left / 256 % 256, s.inset_left / 65536 % 256,
    s.inset_left / 16777216 % 256, s.offset_top % 256,
    s.offset_top / 256 % 256, s.offset_top / 65536 % 256,
    s.offset_top / 16777216 % 256, s.offset_right % 256,
    s.offset_right / 256 % 256, s.offset_right / 65536 % 256,
    s.offset_right / 16777216 % 256, s.offset_bottom % 256,
    s.offset_bottom / 256 % 256, s.offset_bottom / 65536 % 256,
    s.offset_bottom / 16777216 % 256, s.offset_left % 256,
    s.offset_left / 256 % 256, s.offset_left / 65536 % 256,
    s.offset_left / 16777216 % 256]
      [s.fill_g % 256, s.fill_b % 256, s.fill_a % 256, s.round % 256,
    s.round / 256 % 256, s.round / 65536 % 256, s.round / 16777216 % 256]
      (v % 256) (s.fill_r % 256) (by omega) (by omega)
      (by rw [Nat.mod_eq_of_lt hv, Nat.mod_eq_of_lt hold]; exact hne)
  case fill_g =>
    simp only [ByteField.get] at hold hne
    exact hash_ne_of_single_byte
      [s.direction % 256, s.pack % 256, s.align % 256, s.pad0 % 256,
    s.gap_row % 256, s.gap_row / 256 % 256, s.gap_row / 65536 % 256,
    s.gap_row / 16777216 % 256, s.gap_col % 256, s.gap_col / 256 % 256,
    s.gap_col / 65536 % 256, s.gap_col / 16777216 % 256, s.width % 256,
    s.width / 256 % 256, s.width / 65536 % 256, s.width / 16777216 % 256,
    s.height % 256, s.height / 256 % 256, s.height / 65536 % 256,
    s.height / 16777216 % 256, s.min_width % 256, s.min_width / 256 % 256,
    s.min_width / 65536 % 256, s.min_width / 16777216 % 256,
    s.min_height % 256, s.min_height / 256 % 256,
    s.min_height / 65536 % 256, s.min_height / 16777216 % 256,
    s.max_width % 256, s.max_width / 256 % 256, s.max_width / 65536 % 256,
    s.max_width / 16777216 % 256, s.max_height % 256,
    s.max_height / 256 % 256, s.max_height / 65536 % 256,
    s.max_height / 16777216 % 256, s.inset_top % 256,
    s.inset_top / 256 % 256, s.inset_top / 65536 % 256,
    s.inset_top / 16777216 % 256, s.inset_right % 256,
    s.inset_right / 256 % 256, s.inset_right / 65536 % 256,
    s.inset_right / 16777216 % 256, s.inset_bottom % 256,
    s.inset_bottom / 256 % 256, s.inset_bottom / 65536 % 256,
    s.inset_bottom / 16777216 % 256, s.inset_left % 256,
    s.inset_left / 256 % 256, s.inset_left / 65536 % 256,
    s.inset_left / 16777216 % 256, s.offset_top % 256,
    s.offset_top / 256 % 256, s.offset_top / 65536 % 256,
    s.offset_top / 16777216 % 256, s.offset_right % 256,
    s.offset_right / 256 % 256, s.offset_right / 65536 % 256,
    s.offset_right / 16777216 % 256, s.offset_bottom % 256,
    s.offset_bottom / 256 % 256, s.offset_bottom / 65536 % 256,
    s.offset_bottom / 16777216 % 256, s.offset_left % 256,
    s.offset_left / 256 % 256, s.offset_left / 65536 % 256,
    s.offset_left / 16777216 % 256, s.fill_r % 256]
      [s.fill_b % 256, s.fill_a % 256, s.round % 256, s.round / 256 % 256,
    s.round / 65536 % 256, s.round / 16777216 % 256]
      (v % 256) (s.fill_g % 256) (by omega) (by omega)
      (by rw [Nat.mod_eq_of_lt hv, Nat.mod_eq_of_lt hold]; exact hne)
  case fill_b =>
    simp only [ByteField.get] at hold hne
    exact hash_ne_of_single_byte
      [s.direction % 256, s.pack % 256, s.align % 256, s.pad0 % 256,
    s.gap_row % 256, s.gap_row / 256 % 256, s.gap_row / 65536 % 256,
    s.gap_row / 16777216 % 256, s.gap_col % 256, s.gap_col / 256 % 256,
    s.gap_col / 65536 % 256, s.gap_col / 16777216 % 256, s.width % 256,
    s.width / 256 % 256, s.width / 65536 % 256, s.width / 16777216 % 256,
    s.height % 256, s.height / 256 % 256, s.height / 65536 % 256,
    s.height / 16777216 % 256, s.min_width % 256, s.min_width / 256 % 256,
    s.min_width / 65536 % 256, s.min_width / 16777216 % 256,
    s.min_height % 256, s.min_height / 256 % 256,
    s.min_height / 65536 % 256, s.min_height / 16777216 % 256,
    s.max_width % 256, s.max_width / 256 % 256, s.max_width / 65536 % 256,
    s.max_width / 16777216 % 256, s.max_height % 256,
    s.max_height / 256 % 256, s.max_height / 65536 % 256,
    s.max_height / 16777216 % 256, s.inset_top % 256,
    s.inset_top / 256 % 256, s.inset_top / 65536 % 256,
    s.inset_top / 16777216 % 256, s.inset_right % 256,
    s.inset_right / 256 % 256, s.inset_right / 65536 % 256,
    s.inset_right / 16777216 % 256, s.inset_bottom % 256,
    s.inset_bottom / 256 % 256, s.inset_bottom / 65536 % 256,
    s.inset_bottom / 16777216 % 256, s.inset_left % 256,
    s.inset_left / 256 % 256, s.inset_left / 65536 % 256,
    s.inset_left / 16777216 % 256, s.offset_top % 256,
    s.offset_top / 256 % 256, s.offset_top / 65536 % 256,
    s.offset_top / 16777216 % 256, s.offset_right % 256,
    s.offset_right / 256 % 256, s.offset_right / 65536 % 256,
    s.offset_right / 16777216 % 256, s.offset_bottom % 256,
    s.offset_bottom / 256 % 256, s.offset_bottom / 65536 % 256,
    s.offset_bottom / 16777216 % 256, s.offset_left % 256,
    s.offset_left / 256 % 256, s.offset_left / 65536 % 256,
    s.offset_left / 16777216 % 256, s.fill_r % 256, s.fill_g % 256]
      [s.fill_a % 256, s.round % 256, s.round / 256 % 256,
    s.round / 65536 % 256, s.round / 16777216 % 256]
      (v % 256) (s.fill_b % 256) (by omega) (by omega)
      (by rw [Nat.mod_eq_of_lt hv, Nat.mod_eq_of_lt hold]; exact hne)
  case fill_a =>
    simp only [ByteField.get] at hold hne
    exact hash_ne_of_single_byte
      [s.direction % 256, s.pack % 256, s.align % 256, s.pad0 % 256,
    s.gap_row % 256, s.gap_row / 256 % 256, s.gap_row / 65536 % 256,
    s.gap_row / 16777216 % 256, s.gap_col % 256, s.gap_col / 256 % 256,
    s.gap_col / 65536 % 256, s.gap_col / 16777216 % 256, s.width % 256,
    s.width / 256 % 256, s.width / 65536 % 256, s.width / 16777216 % 256,
    s.height % 256, s.height / 256 % 256, s.height / 65536 % 256,
    s.height / 16777216 % 256, s.min_width % 256, s.min_width / 256 % 256,
    s.min_width / 65536 % 256, s.min_width / 16777216 % 256,
    s.min_height % 256, s.min_height / 256 % 256,
    s.min_height / 65536 % 256, s.min_height / 16777216 % 256,
    s.max_width % 256, s.max_width / 256 % 256, s.max_width / 65536 % 256,
    s.max_width / 16777216 % 256, s.max_height % 256,
    s.max_height / 256 % 256, s.max_height / 65536 % 256,
    s.max_height / 16777216 % 256, s.inset_top % 256,
    s.inset_top / 256 % 256, s.inset_top / 65536 % 256,
    s.inset_top / 16777216 % 256, s.inset_right % 256,
    s.inset_right / 256 % 256, s.inset_right / 65536 % 256,
    s.inset_right / 16777216 % 256, s.inset_bottom % 256,
    s.inset_bottom / 256 % 256, s.inset_bottom / 65536 % 256,
    s.inset_bottom / 16777216 % 256, s.inset_left % 256,
    s.inset_left / 256 % 256, s.inset_left / 65536 % 256,
    s.inset_left / 16777216 % 256, s.offset_top % 256,
    s.offset_top / 256 % 256, s.offset_top / 65536 % 256,
    s.offset_top / 16777216 % 256, s.offset_right % 256,
    s.offset_right / 256 % 256, s.offset_right / 65536 % 256,
    s.offset_right / 16777216 % 256, s.offset_bottom % 256,
    s.offset_bottom / 256 % 256, s.offset_bottom / 65536 % 256,
    s.offset_bottom / 16777216 % 256, s.offset_left % 256,
    s.offset_left / 256 % 256, s.offset_left / 65536 % 256,
    s.offset_left / 16777216 % 256, s.fill_r % 256, s.fill_g % 256,
    s.fill_b % 256]
      [s.round % 256, s.round / 256 % 256, s.round / 65536 % 256,
    s.round / 16777216 % 256]
      (v % 256) (s.fill_a % 256) (by omega) (by omega)
      (by rw [Nat.mod_eq_of_lt hv, Nat.mod_eq_of_lt hold]; exact hne)

/-- Concrete instantiation of checksum_single_byte_field_sensitive: changing
fill_r of the default record from 0 to 5. -/
theorem checksum_single_byte_field_sensitive_witness :
    compute_style_checksum (ByteField.set {} ByteField.fill_r 5)
      ≠ compute_style_checksum {} :=
  checksum_single_byte_field_sensitive {} ByteField.fill_r 5 (by decide)
    (by decide) (by decide)

/-- C8 (counterexample to the claim as stated): the FlatStyle records that
differ only in the width field, bit patterns 1 and 7936 = 31 * 256, have the
same recomputed checksum, so changing one (multi-byte) field to a different
value can leave the checksum unchanged. -/
theorem checksum_width_collision :
    ({ width := 7936 } : FlatStyle)
        = { ({ width := 1 } : FlatStyle) with width := 7936 } ∧
    ({ width := 7936 } : FlatStyle).width ≠ ({ width := 1 } : FlatStyle).width ∧
    compute_style_checksum { width := 7936 }
      = compute_style_checksum ({ width := 1 } : FlatStyle) := by
  refine ⟨rfl, by decide, by decide⟩

/-! Claims C2 and C6: the binary codec.  Well-formedness bounds state that
every stored machine integer fits its Rust type (u8 / u32 / u64), which the
Rust types guarantee and the Nat model must assume. -/

/-- Field bounds of one node record (all link fields are u32). -/
def ContentNode.WF (r : ContentNode) : Prop :=
  r.parent < 4294967296 ∧ r.first_child < 4294967296 ∧
  r.next_sibling < 4294967296 ∧ r.style_id < 4294967296

instance (r : ContentNode) : Decidable r.WF := by
  unfold ContentNode.WF; infer_instance

/-- Field bounds of a FlatStyle: u8 fields below 2^8, f32 bit patterns below
2^32, the u64 checksum below 2^64. -/
def FlatStyle.WFBounds (s : FlatStyle) : Prop :=
  s.direction < 256 ∧ s.pack < 256 ∧ s.align < 256 ∧ s.pad0 < 256 ∧
  s.gap_row < 4294967296 ∧ s.gap_col < 4294967296 ∧
  s.width < 4294967296 ∧ s.height < 4294967296 ∧
  s.min_width < 4294967296 ∧ s.min_height < 4294967296 ∧
  s.max_width < 4294967296 ∧ s.max_height < 4294967296 ∧
  s.inset_top < 4294967296 ∧ s.inset_right < 4294967296 ∧
  s.inset_bottom < 4294967296 ∧ s.inset_left < 4294967296 ∧
  s.offset_top < 4294967296 ∧ s.offset_right < 4294967296 ∧
  s.offset_bottom < 4294967296 ∧ s.offset_left < 4294967296 ∧
  s.fill_r < 256 ∧ s.fill_g < 256 ∧ s.fill_b < 256 ∧ s.fill_a < 256 ∧
  s.round < 4294967296 ∧ s.checksum < 18446744073709551616

instance (s : FlatStyle) : Decidable s.WFBounds := by
  unfold FlatStyle.WFBounds; infer_instance

/-- Well-formedness of a CompiledUnit for serialization: consistent SoA
lengths, u32-bounded counts and fields, bounded styles. -/
def CompiledUnit.WF (u : CompiledUnit) : Prop :=
  u.nodes.SameLen ∧ u.nodes.node_types.length < 4294967296 ∧
  (∀ r ∈ u.nodes.rows, r.WF) ∧
  u.version < 4294967296 ∧ u.environment_id < 4294967296 ∧
  u.checksum < 18446744073709551616 ∧
  u.styles.length < 4294967296 ∧ (∀ s ∈ u.styles, s.WFBounds)

instance (u : CompiledUnit) : Decidable u.WF := by
  unfold CompiledUnit.WF; infer_instance

/-- Little-endian value of a byte list (first byte least significant). -/
def leDecode : List Nat → Nat
  | [] => 0
  | b :: rest => b + 256 * leDecode rest

/-- A read of k bytes succeeds exactly on the little-endian value of the
first k bytes whenever k bytes remain. -/
theorem readLE_ok_of_le : ∀ (k : Nat) (data : List Nat), k ≤ data.length →
    readLE k data = .ok (leDecode (data.take k), data.drop k) := by
  intro k
  induction k with
  | zero => intro data _; rfl
  | succ k ih =>
    intro data hk
    cases data with
    | nil => simp at hk
    | cons b rest =>
      show (match readLE k rest with
        | Except.ok (v, fin) => Except.ok (b + 256 * v, fin)
        | Except.error e => Except.error e)
        = Except.ok (leDecode ((b :: rest).take (k + 1)),
            (b :: rest).drop (k + 1))
      rw [ih rest (by simpa using hk)]
      rfl

theorem readLE_lb4 (v : Nat) (hv : v < 4294967296) (rest : List Nat) :
    readLE 4 (lb4 v ++ rest) = .ok (v, rest) := by
  have h : readLE 4 (lb4 v ++ rest)
      = .ok (v % 256 + 256 * (v / 256 % 256 + 256 * (v / 65536 % 256
          + 256 * (v / 16777216 % 256 + 256 * 0))), rest) := rfl
  rw [h]
  have h2 : v % 256 + 256 * (v / 256 % 256 + 256 * (v / 65536 % 256
      + 256 * (v / 16777216 % 256 + 256 * 0))) = v := by omega
  rw [h2]

theorem readLE_lb8 (v : Nat) (hv : v < 18446744073709551616)
    (rest : List Nat) : readLE 8 (lb8 v ++ rest) = .ok (v, rest) := by
  have h : readLE 8 (lb8 v ++ rest)
      = .ok (v % 256 + 256 * (v / 256 % 256 + 256 * (v / 65536 % 256
          + 256 * (v / 16777216 % 256 + 256 * (v / 4294967296 % 256
          + 256 * (v / 1099511627776 % 256 + 256 * (v / 281474976710656 % 256
          + 256 * (v / 72057594037927936 % 256 + 256 * 0))))))), rest) := rfl
  rw [h]
  have h2 : v % 256 + 256 * (v / 256 % 256 + 256 * (v / 65536 % 256
      + 256 * (v / 16777216 % 256 + 256 * (v / 4294967296 % 256
      + 256 * (v / 1099511627776 % 256 + 256 * (v / 281474976710656 % 256
      + 256 * (v / 72057594037927936 % 256 + 256 * 0))))))) = v := by omega
  rw [h2]

theorem readLE_one (b : Nat) (rest : List Nat) :
    readLE 1 (b :: rest) = .ok (b, rest) := by
  have h : readLE 1 (b :: rest) = .ok (b + 256 * 0, rest) := rfl
  rw [h]
  have h2 : b + 256 * 0 = b := by omega
  rw [h2]

theorem natToNodeType_toNat (t : NodeType) : natToNodeType t.toNat = t := by
  cases t <;> rfl

theorem lb4_length (v : Nat) : (lb4 v).length = 4 := rfl

theorem lb8_length (v : Nat) : (lb8 v).length = 8 := rfl

theorem contentNode_bytes_length (r : ContentNode) : r.bytes.length = 17 := by
  simp [ContentNode.bytes, lb4]

theorem flatStyle_bytes_length (s : FlatStyle) : s.bytes.length = 84 := by
  rw [FlatStyle.bytes, List.length_append, preBytes_length, lb8_length]

theorem writeNodes_length (rows : List ContentNode) :
    (writeNodes rows).length = 17 * rows.length := by
  induction rows with
  | nil => rfl
  | cons r rs ih =>
    rw [writeNodes, List.length_append, contentNode_bytes_length, ih,
      List.length_cons]
    ring

theorem writeStyles_length (ss : List FlatStyle) :
    (writeStyles ss).length = 84 * ss.length := by
  induction ss with
  | nil => rfl
  | cons s st ih =>
    rw [writeStyles, List.length_append, flatStyle_bytes_length, ih,
      List.length_cons]
    ring

theorem rows_length (t : NodeTable) : t.rows.length = t.node_types.length := by
  simp [NodeTable.rows]

/-- Decoding the 84 serialized bytes of a bounded FlatStyle reproduces it. -/
theorem ofBytes_bytes (s : FlatStyle) (h : s.WFBounds) :
    FlatStyle.ofBytes s.bytes = s := by
  obtain ⟨b1, b2, b3, b4, b5, b6, b7, b8, b9, b10, b11, b12, b13, b14, b15,
    b16, b17, b18, b19, b20, b21, b22, b23, b24, b25, b26⟩ := h
  apply FlatStyle.ext
  · show s.direction % 256 = s.direction
    omega
  · show s.pack % 256 = s.pack
    omega
  · show s.align % 256 = s.align
    omega
  · show s.pad0 % 256 = s.pad0
    omega
  · show (s.gap_row % 256) + 256 * ((s.gap_row / 256 % 256) + 256 * ((s.gap_row / 65536 % 256) + 256 * (s.gap_row / 16777216 % 256))) = s.gap_row
    omega
  · show (s.gap_col % 256) + 256 * ((s.gap_col / 256 % 256) + 256 * ((s.gap_col / 65536 % 256) + 256 * (s.gap_col / 16777216 % 256))) = s.gap_col
    omega
  · show (s.width % 256) + 256 * ((s.width / 256 % 256) + 256 * ((s.width / 65536 % 256) + 256 * (s.width / 16777216 % 256))) = s.width
    omega
  · show (s.height % 256) + 256 * ((s.height / 256 % 256) + 256 * ((s.height / 65536 % 256) + 256 * (s.height / 16777216 % 256))) = s.height
    omega
  · show (s.min_width % 256) + 256 * ((s.min_width / 256 % 256) + 256 * ((s.min_width / 65536 % 256) + 256 * (s.min_width / 16777216 % 256))) = s.min_width
    omega
  · show (s.min_height % 256) + 256 * ((s.min_height / 256 % 256) + 256 * ((s.min_height / 65536 % 256) + 256 * (s.min_height / 16777216 % 256))) = s.min_height
    omega
  · show (s.max_width % 256) + 256 * ((s.max_width / 256 % 256) + 256 * ((s.max_width / 65536 % 256) + 256 * (s.max_width / 16777216 % 256))) = s.max_width
    omega
  · show (s.max_height % 256) + 256 * ((s.max_height / 256 % 256) + 256 * ((s.max_height / 65536 % 256) + 256 * (s.max_height / 16777216 % 256))) = s.max_height
    omega
  · show (s.inset_top % 256) + 256 * ((s.inset_top / 256 % 256) + 256 * ((s.inset_top / 65536 % 256) + 256 * (s.inset_top / 16777216 % 256))) = s.inset_top
    omega
  · show (s.inset_right % 256) + 256 * ((s.inset_right / 256 % 256) + 256 * ((s.inset_right / 65536 % 256) + 256 * (s.inset_right / 16777216 % 256))) = s.inset_right
    omega
  · show (s.inset_bottom % 256) + 256 * ((s.inset_bottom / 256 % 256) + 256 * ((s.inset_bottom / 65536 % 256) + 256 * (s.inset_bottom / 16777216 % 256))) = s.inset_bottom
    omega
  · show (s.inset_left % 256) + 256 * ((s.inset_left / 256 % 256) + 256 * ((s.inset_left / 65536 % 256) + 256 * (s.inset_left / 16777216 % 256))) = s.inset_left
    omega
  · show (s.offset_top % 256) + 256 * ((s.offset_top / 256 % 256) + 256 * ((s.offset_top / 65536 % 256) + 256 * (s.offset_top / 16777216 % 256))) = s.offset_top
    omega
  · show (s.offset_right % 256) + 256 * ((s.offset_right / 256 % 256) + 256 * ((s.offset_right / 65536 % 256) + 256 * (s.offset_right / 16777216 % 256))) = s.offset_right
    omega
  · show (s.offset_bottom % 256) + 256 * ((s.offset_bottom / 256 % 256) + 256 * ((s.offset_bottom / 65536 % 256) + 256 * (s.offset_bottom / 16777216 % 256))) = s.offset_bottom
    omega
  · show (s.offset_left % 256) + 256 * ((s.offset_left / 256 % 256) + 256 * ((s.offset_left / 65536 % 256) + 256 * (s.offset_left / 16777216 % 256))) = s.offset_left
    omega
  · show s.fill_r % 256 = s.fill_r
    omega
  · show s.fill_g % 256 = s.fill_g
    omega
  · show s.fill_b % 256 = s.fill_b
    omega
  · show s.fill_a % 256 = s.fill_a
    omega
  · show (s.round % 256) + 256 * ((s.round / 256 % 256) + 256 * ((s.round / 65536 % 256) + 256 * (s.round / 16777216 % 256))) = s.round
    omega
  · show ((s.checksum % 256) + 256 * ((s.checksum / 256 % 256) + 256 * ((s.checksum / 65536 % 256) + 256 * (s.checksum / 16777216 % 256)))) + 4294967296 * ((s.checksum / 4294967296 % 256) + 256 * ((s.checksum / 1099511627776 % 256) + 256 * ((s.checksum / 281474976710656 % 256) + 256 * (s.checksum / 72057594037927936 % 256)))) = s.checksum
    omega

/-- The node-record loop of read_binary inverts the node section of
write_binary. -/
theorem readNodes_writeNodes (rows : List ContentNode) (rest : List Nat)
    (h : ∀ r ∈ rows, r.WF) :
    readNodes rows.length (writeNodes rows ++ rest) = .ok (rows, rest) := by
  induction rows with
  | nil => rfl
  | cons r rs ih =>
    obtain ⟨hp, hf, hn, hs⟩ := h r (by simp)
    have hrest : ∀ x ∈ rs, x.WF := fun x hx => h x (by simp [hx])
    have hlen : ¬((writeNodes (r :: rs) ++ rest).length < 17) := by
      rw [List.length_append, writeNodes_length, List.length_cons]
      omega
    rw [List.length_cons, readNodes, if_neg hlen]
    have harr : writeNodes (r :: rs) ++ rest
        = r.node_type.toNat :: (lb4 r.parent ++ (lb4 r.first_child
          ++ (lb4 r.next_sibling ++ (lb4 r.style_id
          ++ (writeNodes rs ++ rest))))) := by
      rw [writeNodes, ContentNode.bytes]
      simp [List.append_assoc]
    rw [harr]
    simp only [readLE_one, readLE_lb4 r.parent hp,
      readLE_lb4 r.first_child hf, readLE_lb4 r.next_sibling hn,
      readLE_lb4 r.style_id hs, ih hrest, natToNodeType_toNat]

/-- The style-record loop of read_binary inverts the style section of
write_binary. -/
theorem readStyles_writeStyles (ss : List FlatStyle) (rest : List Nat)
    (h : ∀ s ∈ ss, s.WFBounds) :
    readStyles ss.length (writeStyles ss ++ rest) = .ok (ss, rest) := by
  induction ss with
  | nil => rfl
  | cons s st ih =>
    have hrest : ∀ x ∈ st, x.WFBounds := fun x hx => h x (by simp [hx])
    have hlen : ¬((writeStyles (s :: st) ++ rest).length < 84) := by
      rw [List.length_append, writeStyles_length, List.length_cons]
      omega
    have harr : writeStyles (s :: st) ++ rest
        = s.bytes ++ (writeStyles st ++ rest) := by
      rw [writeStyles, List.append_assoc]
    have htake : (s.bytes ++ (writeStyles st ++ rest)).take 84 = s.bytes := by
      rw [show (84 : Nat) = s.bytes.length from (flatStyle_bytes_length s).symm,
        List.take_left]
    have hdrop : (s.bytes ++ (writeStyles st ++ rest)).drop 84
        = writeStyles st ++ rest := by
      rw [show (84 : Nat) = s.bytes.length from (flatStyle_bytes_length s).symm,
        List.drop_left]
    rw [List.length_cons, readStyles, if_neg hlen, harr, hdrop, htake,
      ih hrest, ofBytes_bytes s (h s (by simp))]

/-- Variant of map_getD_range with the length given by an equation. -/
theorem map_getD_range_of_len {α : Type} (l : List α) (d : α) (n : Nat)
    (h : l.length = n) :
    (List.range n).map (fun i => l.getD i d) = l := by
  subst h
  exact map_getD_range l d

/-- Rebuilding the SoA node table from its row view gives back the table. -/
theorem rowsToTable_eq (t : NodeTable) (h : t.SameLen) :
    ({ node_types := t.rows.map (fun r => r.node_type)
       parents := t.rows.map (fun r => r.parent)
       first_children := t.rows.map (fun r => r.first_child)
       next_siblings := t.rows.map (fun r => r.next_sibling)
       style_ids := t.rows.map (fun r => r.style_id) } : NodeTable) = t := by
  obtain ⟨hp, hf, hn, hs⟩ := h
  unfold NodeTable.rows
  simp only [List.map_map]
  show ({ node_types := (List.range t.node_types.length).map
            (fun i => t.node_types.getD i NodeType.Root)
          parents := (List.range t.node_types.length).map
            (fun i => t.parents.getD i 0)
          first_children := (List.range t.node_types.length).map
            (fun i => t.first_children.getD i 0)
          next_siblings := (List.range t.node_types.length).map
            (fun i => t.next_siblings.getD i 0)
          style_ids := (List.range t.node_types.length).map
            (fun i => t.style_ids.getD i 0) } : NodeTable) = t
  rw [map_getD_range_of_len t.node_types NodeType.Root _ rfl,
    map_getD_range_of_len t.parents 0 _ hp,
    map_getD_range_of_len t.first_children 0 _ hf,
    map_getD_range_of_len t.next_siblings 0 _ hn,
    map_getD_range_of_len t.style_ids 0 _ hs]

/-- C2: binary round-trip.  For every well-formed CompiledUnit (consistent
SoA lengths, u32/u64-bounded fields and counts), decoding the written bytes
succeeds and returns a unit equal to the original except for the property
table, which the wire format does not carry (read_binary leaves it default).
In particular node count, every node record, style count, every style
record's fields, checksum, version and environment id all match. -/
theorem read_binary_write_binary (u : CompiledUnit) (h : u.WF) :
    CompiledUnit.read_binary (CompiledUnit.write_binary u)
      = some { u with properties := {} } := by
  obtain ⟨hsl, hnlen, hrows, hver, henv, hcks, hslen, hstyles⟩ := h
  have hw : CompiledUnit.write_binary u
      = lb4 MAGIC_NUMBER ++ (lb4 u.version ++ (lb4 u.environment_id
        ++ (lb8 u.checksum ++ (lb4 u.nodes.node_types.length
        ++ (writeNodes u.nodes.rows ++ (lb4 u.styles.length
        ++ writeStyles u.styles)))))) := by
    unfold CompiledUnit.write_binary NodeTable.len
    rw [Nat.mod_eq_of_lt hnlen, Nat.mod_eq_of_lt hslen]
  have hRN := readNodes_writeNodes u.nodes.rows
    (lb4 u.styles.length ++ writeStyles u.styles) hrows
  rw [rows_length] at hRN
  have hRS := readStyles_writeStyles u.styles [] hstyles
  rw [List.append_nil] at hRS
  have hlen24 : ¬((lb4 MAGIC_NUMBER ++ (lb4 u.version
      ++ (lb4 u.environment_id ++ (lb8 u.checksum
      ++ (lb4 u.nodes.node_types.length ++ (writeNodes u.nodes.rows
      ++ (lb4 u.styles.length ++ writeStyles u.styles))))))).length < 24) := by
    simp only [List.length_append, lb4_length, lb8_length, writeNodes_length,
      writeStyles_length]
    omega
  have hsty4 : ¬((lb4 u.styles.length ++ writeStyles u.styles).length < 4) := by
    simp only [List.length_append, lb4_length, writeStyles_length]
    omega
  unfold CompiledUnit.read_binary readBinaryE
  rw [hw, if_neg hlen24]
  simp only [readLE_lb4 MAGIC_NUMBER (by decide)]
  rw [if_neg (by simp)]
  simp only [readLE_lb4 u.version hver, readLE_lb4 u.environment_id henv,
    readLE_lb8 u.checksum hcks, readLE_lb4 u.nodes.node_types.length hnlen,
    hRN]
  rw [if_neg hsty4]
  simp only [readLE_lb4 u.styles.length hslen, hRS]
  rw [rowsToTable_eq u.nodes hsl]
  rfl

/-- A small concrete unit: a Root with one Stack child and one style. -/
def c2Unit : CompiledUnit :=
  { nodes := { node_types := [.Root, .Stack], parents := [0, 1]
               first_children := [2, 0], next_siblings := [0, 0]
               style_ids := [0, 0] }
    styles := [{ width := 1 }]
    environment_id := 3
    version := 1
    checksum := 7 }

/-- Concrete instantiation of read_binary_write_binary at c2Unit. -/
theorem read_binary_write_binary_witness :
    CompiledUnit.read_binary (CompiledUnit.write_binary c2Unit)
      = some { c2Unit with properties := {} } :=
  read_binary_write_binary c2Unit (by decide)

/-- The style loop never performs an unguarded read: it cannot produce the
oob error on any count and input. -/
theorem readStyles_no_oob : ∀ (s : Nat) (data : List Nat),
    readStyles s data ≠ .error .oob := by
  intro s
  induction s with
  | zero =>
    intro data h
    simp [readStyles] at h
  | succ n ih =>
    intro data h
    rw [readStyles] at h
    by_cases h84 : data.length < 84
    · rw [if_pos h84] at h
      simp at h
    · rw [if_neg h84] at h
      rcases hr : readStyles n (data.drop 84) with e | ok
      · rw [hr] at h
        simp at h
        rw [h] at hr
        exact ih _ hr
      · rw [hr] at h
        simp at h

/-- The node loop guards every record with a 17-byte length check, so none of
its five field reads can go out of bounds. -/
theorem readNodes_no_oob : ∀ (n : Nat) (data : List Nat),
    readNodes n data ≠ .error .oob := by
  intro n
  induction n with
  | zero =>
    intro data h
    simp [readNodes] at h
  | succ n ih =>
    intro data h
    rw [readNodes] at h
    by_cases h17 : data.length < 17
    · rw [if_pos h17] at h
      simp at h
    · rw [if_neg h17] at h
      have e1 := readLE_ok_of_le 1 data (by omega)
      have e2 := readLE_ok_of_le 4 (data.drop 1)
        (by rw [List.length_drop]; omega)
      have e3 := readLE_ok_of_le 4 ((data.drop 1).drop 4)
        (by simp only [List.length_drop]; omega)
      have e4 := readLE_ok_of_le 4 (((data.drop 1).drop 4).drop 4)
        (by simp only [List.length_drop]; omega)
      have e5 := readLE_ok_of_le 4 ((((data.drop 1).drop 4).drop 4).drop 4)
        (by simp only [List.length_drop]; omega)
      simp only [e1, e2, e3, e4, e5] at h
      rcases hr : readNodes n
          (((((data.drop 1).drop 4).drop 4).drop 4).drop 4) with e | ok
      · rw [hr] at h
        simp at h
        rw [h] at hr
        exact ih _ hr
      · rw [hr] at h
        simp at h

/-- C6: decode failure semantics.  read_binary returns the absent value when
the input is shorter than the 24-byte header and when the first four
little-endian bytes are not the magic number; and on no input whatsoever
does the decoder reach an unguarded read (the oob error that models a Rust
slice panic): every truncation path is caught by an explicit length guard
and surfaces as the absent value. -/
theorem read_binary_failure_semantics :
    (∀ data : List Nat, data.length < 24 →
      CompiledUnit.read_binary data = none) ∧
    (∀ data : List Nat, 24 ≤ data.length →
      leDecode (data.take 4) ≠ MAGIC_NUMBER →
      CompiledUnit.read_binary data = none) ∧
    (∀ data : List Nat, readBinaryE data ≠ .error .oob) := by
  refine ⟨?_, ?_, ?_⟩
  · intro data h
    unfold CompiledUnit.read_binary readBinaryE
    rw [if_pos h]
    rfl
  · intro data h hm
    unfold CompiledUnit.read_binary readBinaryE
    rw [if_neg (by omega)]
    simp only [readLE_ok_of_le 4 data (by omega)]
    rw [if_pos hm]
    rfl
  · intro data h
    unfold readBinaryE at h
    by_cases h24 : data.length < 24
    · rw [if_pos h24] at h
      simp at h
    · rw [if_neg h24] at h
      have e1 := readLE_ok_of_le 4 data (by omega)
      simp only [e1] at h
      by_cases hm : leDecode (data.take 4) ≠ MAGIC_NUMBER
      · rw [if_pos hm] at h
        simp at h
      · rw [if_neg hm] at h
        have e2 := readLE_ok_of_le 4 (data.drop 4)
          (by rw [List.length_drop]; omega)
        have e3 := readLE_ok_of_le 4 ((data.drop 4).drop 4)
          (by simp only [List.length_drop]; omega)
        have e4 := readLE_ok_of_le 8 (((data.drop 4).drop 4).drop 4)
          (by simp only [List.length_drop]; omega)
        have e5 := readLE_ok_of_le 4 ((((data.drop 4).drop 4).drop 4).drop 8)
          (by simp only [List.length_drop]; omega)
        simp only [e2, e3, e4, e5] at h
        rcases hr : readNodes
            (leDecode (((((data.drop 4).drop 4).drop 4).drop 8).take 4))
            (((((data.drop 4).drop 4).drop 4).drop 8).drop 4) with e | ⟨rows, r6⟩
        · rw [hr] at h
          simp at h
          rw [h] at hr
          exact readNodes_no_oob _ _ hr
        · rw [hr] at h
          dsimp only at h
          by_cases h4 : r6.length < 4
          · rw [if_pos h4] at h
            simp at h
          · rw [if_neg h4] at h
            have e6 := readLE_ok_of_le 4 r6 (by omega)
            simp only [e6] at h
            rcases hs : readStyles (leDecode (r6.take 4)) (r6.drop 4)
              with e | ⟨styles, r8⟩
            · rw [hs] at h
              simp at h
              rw [h] at hs
              exact readStyles_no_oob _ _ hs
            · rw [hs] at h
              simp at h

/-- Concrete instantiations of read_binary_failure_semantics: a three-byte
input, a 24-byte all-zero input (wrong magic), and the oob-freedom at the
empty input. -/
theorem read_binary_failure_semantics_witness :
    CompiledUnit.read_binary [0, 1, 2] = none ∧
    CompiledUnit.read_binary (List.replicate 24 0) = none ∧
    readBinaryE [] ≠ .error .oob :=
  ⟨read_binary_failure_semantics.1 [0, 1, 2] (by decide),
   read_binary_failure_semantics.2.1 (List.replicate 24 0) (by decide)
     (by decide),
   read_binary_failure_semantics.2.2 []⟩

/-! Claim C3: the tree-shape invariant of create_node / get_children.  A
sequence of create_node calls in which every parent argument is 0 or an
already-returned id is modelled as a list of Call records folded over the
empty table; childIds is the specification list: the ids of the calls that
passed p as parent, in call order. -/

/-- One create_node call: its arguments. -/
structure Call where
  node_type : NodeType
  parent : Nat
  style_id : Nat
  deriving DecidableEq, Repr

/-- The table built by issuing the calls in order on an empty table. -/
def buildTable (calls : List Call) : NodeTable :=
  calls.foldl (fun t c => (t.create_node c.node_type c.parent c.style_id).2) {}

/-- Validity of a call sequence: every parent argument is 0 or an id already
returned, i.e. at most the number of nodes created so far. -/
def ValidCalls (calls : List Call) : Prop :=
  ∀ i, i < calls.length → (calls.getD i ⟨.Root, 0, 0⟩).parent ≤ i

/-- Specification: the ids (index + 1) whose recorded parent is p, in
creation order. -/
def childIds (ps : List Nat) (p : Nat) : List Nat :=
  ((List.range ps.length).filter (fun i => ps.getD i 0 = p)).map (fun i => i + 1)

/-- The id that follows i in a sibling list (0 when i is last or absent). -/
def nextAfter : List Nat → Nat → Nat
  | [], _ => 0
  | [_], _ => 0
  | a :: b :: rest, i => if a = i then b else nextAfter (b :: rest) i

theorem mem_childIds (ps : List Nat) (p i : Nat) :
    i ∈ childIds ps p ↔ 1 ≤ i ∧ i ≤ ps.length ∧ ps.getD (i - 1) 0 = p := by
  unfold childIds
  simp only [List.mem_map, List.mem_filter, List.mem_range]
  constructor
  · rintro ⟨j, ⟨hj, hget⟩, rfl⟩
    refine ⟨by omega, by omega, ?_⟩
    simpa using of_decide_eq_true hget
  · rintro ⟨h1, h2, h3⟩
    exact ⟨i - 1, ⟨by omega, decide_eq_true (by
      rw [h3]), ⟩, by omega⟩

theorem childIds_pairwise_lt (ps : List Nat) (p : Nat) :
    (childIds ps p).Pairwise (fun a b => a < b) :=
  List.Pairwise.map _ (fun a b hab => by omega)
    (List.Pairwise.filter _ (List.pairwise_lt_range ps.length))

theorem childIds_nodup (ps : List Nat) (p : Nat) : (childIds ps p).Nodup :=
  (childIds_pairwise_lt ps p).imp (fun h => Nat.ne_of_lt h)

theorem childIds_length_le (ps : List Nat) (p : Nat) :
    (childIds ps p).length ≤ ps.length := by
  unfold childIds
  rw [List.length_map]
  calc (List.filter _ (List.range ps.length)).length
      ≤ (List.range ps.length).length := List.length_filter_le _ _
  _ = ps.length := List.length_range ps.length

theorem childIds_append (ps : List Nat) (q p : Nat) :
    childIds (ps ++ [q]) p
      = childIds ps p ++ (if q = p then [ps.length + 1] else []) := by
  unfold childIds
  rw [List.length_append, List.length_cons, List.length_nil, Nat.zero_add,
    List.range_succ, List.filter_append, List.map_append]
  congr 1
  · apply congrArg
    apply List.filter_congr
    intro j hj
    rw [getD_append_lt _ _ _ _ (List.mem_range.mp hj)]
  · by_cases hq : q = p
    · simp [List.filter, getD_append_len, hq]
    · simp [List.filter, getD_append_len, hq]

theorem childIds_eq_nil_of_gt (ps : List Nat) (p : Nat)
    (h : ∀ j, j < ps.length → ps.getD j 0 < p) : childIds ps p = [] := by
  unfold childIds
  rw [List.filter_eq_nil_iff.mpr, List.map_nil]
  intro a ha
  have := h a (List.mem_range.mp ha)
  simp only [decide_eq_true_eq]
  omega

theorem childIds_headD_zero_iff (ps : List Nat) (p : Nat) :
    (childIds ps p).headD 0 = 0 ↔ childIds ps p = [] := by
  cases h : childIds ps p with
  | nil => simp
  | cons a t =>
    simp only [List.headD_cons]
    have ha : a ∈ childIds ps p := by
      rw [h]
      exact List.mem_cons_self a t
    have := (mem_childIds ps p a).mp ha
    constructor
    · intro h0
      omega
    · intro hcon
      cases hcon

theorem nextAfter_cons_of_ne (l : List Nat) (a i : Nat) (h : a ≠ i) :
    nextAfter (a :: l) i = nextAfter l i := by
  cases l with
  | nil => rfl
  | cons b r =>
    rw [nextAfter, if_neg h]

theorem nextAfter_cons_self (l : List Nat) (a : Nat) :
    nextAfter (a :: l) a = l.headD 0 := by
  cases l with
  | nil => rfl
  | cons b r =>
    rw [nextAfter, if_pos rfl]
    rfl

theorem lastD_cons_cons (a b : Nat) (r : List Nat) :
    (a :: b :: r).getLastD 0 = (b :: r).getLastD 0 := by
  simp [List.getLastD]

theorem getLastD_mem (l : List Nat) (h : l ≠ []) : l.getLastD 0 ∈ l := by
  induction l with
  | nil => exact absurd rfl h
  | cons a t ih =>
    cases t with
    | nil => simp [List.getLastD]
    | cons b r =>
      rw [lastD_cons_cons]
      exact List.mem_cons_of_mem a (ih (by simp))

theorem nextAfter_append_self (l : List Nat) (x : Nat) (hx : x ∉ l) :
    nextAfter (l ++ [x]) x = 0 := by
  induction l with
  | nil => rfl
  | cons a t ih =>
    have hax : a ≠ x := fun hh => hx (hh ▸ List.mem_cons_self a t)
    rw [List.cons_append, nextAfter_cons_of_ne _ _ _ hax]
    exact ih (fun hh => hx (List.mem_cons_of_mem a hh))

theorem nextAfter_append_last (l : List Nat) (x i : Nat) (hnd : l.Nodup)
    (hmem : i ∈ l) (hlast : l.getLastD 0 = i) :
    nextAfter (l ++ [x]) i = x := by
  induction l with
  | nil => cases hmem
  | cons a t ih =>
    cases t with
    | nil =>
      have : i = a := by simpa using hmem
      subst this
      rw [List.cons_append, List.nil_append, nextAfter, if_pos rfl]
    | cons b r =>
      by_cases hia : i = a
      · subst hia
        have hlast2 : (b :: r).getLastD 0 = i := by
          rw [← lastD_cons_cons i b r, hlast]
        have : i ∈ b :: r := hlast2 ▸ getLastD_mem _ (by simp)
        exact absurd this (List.nodup_cons.mp hnd).1
      · rw [List.cons_append, nextAfter_cons_of_ne _ _ _ (fun hh => hia hh.symm)]
        exact ih (List.nodup_cons.mp hnd).2
          (by rcases List.mem_cons.mp hmem with h1 | h1
              · exact absurd h1 hia
              · exact h1)
          (by rw [← lastD_cons_cons a b r, hlast])

theorem nextAfter_append_of_ne_last (l : List Nat) (x i : Nat)
    (hmem : i ∈ l) (hlast : l.getLastD 0 ≠ i) :
    nextAfter (l ++ [x]) i = nextAfter l i := by
  induction l with
  | nil => cases hmem
  | cons a t ih =>
    cases t with
    | nil =>
      have : i = a := by simpa using hmem
      subst this
      exact absurd (by simp [List.getLastD]) hlast
    | cons b r =>
      by_cases hia : i = a
      · subst hia
        rw [List.cons_append, List.cons_append, nextAfter, if_pos rfl,
          nextAfter, if_pos rfl]
      · rw [List.cons_append, nextAfter_cons_of_ne _ _ _ (fun hh => hia hh.symm),
          nextAfter_cons_of_ne _ _ _ (fun hh => hia hh.symm)]
        exact ih
          (by rcases List.mem_cons.mp hmem with h1 | h1
              · exact absurd h1 hia
              · exact h1)
          (by rw [← lastD_cons_cons a b r]; exact hlast)

theorem childrenAux_succ (ns : List Nat) (c f : Nat) :
    childrenAux ns c (f + 1)
      = if c = 0 then [] else c :: childrenAux ns (ns.getD (c - 1) 0) f := rfl

theorem lastSibling_succ (ns : List Nat) (sib f : Nat) :
    lastSibling ns sib (f + 1)
      = if ns.getD (sib - 1) 0 = 0 then sib
        else lastSibling ns (ns.getD (sib - 1) 0) f := rfl

/-- The sibling chain collected by get_children equals L whenever the
next_siblings slots realize the successor function of L. -/
theorem childrenAux_collect (ns : List Nat) (L : List Nat) (fuel : Nat)
    (hfuel : L.length ≤ fuel)
    (hchain : ∀ i ∈ L, ns.getD (i - 1) 0 = nextAfter L i)
    (hnd : L.Nodup) (hpos : ∀ i ∈ L, 1 ≤ i) :
    childrenAux ns (L.headD 0) fuel = L := by
  induction L generalizing fuel with
  | nil =>
    cases fuel with
    | zero => rfl
    | succ f => rw [List.headD_nil, childrenAux_succ, if_pos rfl]
  | cons a rest ih =>
    obtain ⟨f, rfl⟩ : ∃ f, fuel = f + 1 :=
      ⟨fuel - 1, by rw [List.length_cons] at hfuel; omega⟩
    have ha1 : 1 ≤ a := hpos a (List.mem_cons_self a rest)
    rw [List.headD_cons, childrenAux_succ, if_neg (by omega)]
    have hns : ns.getD (a - 1) 0 = rest.headD 0 := by
      rw [hchain a (List.mem_cons_self a rest), nextAfter_cons_self]
    rw [hns]
    congr 1
    apply ih
    · rw [List.length_cons] at hfuel; omega
    · intro i hi
      have hia : a ≠ i := fun hh => (List.nodup_cons.mp hnd).1 (hh ▸ hi)
      rw [hchain i (List.mem_cons_of_mem a hi), nextAfter_cons_of_ne _ _ _ hia]
    · exact (List.nodup_cons.mp hnd).2
    · exact fun i hi => hpos i (List.mem_cons_of_mem a hi)

/-- The while-loop walk of create_node lands on the last element of the
sibling list realized by next_siblings. -/
theorem lastSibling_last (ns : List Nat) (L : List Nat) (fuel : Nat)
    (hfuel : L.length ≤ fuel)
    (hchain : ∀ i ∈ L, ns.getD (i - 1) 0 = nextAfter L i)
    (hnd : L.Nodup) (hpos : ∀ i ∈ L, 1 ≤ i) (hne : L ≠ []) :
    lastSibling ns (L.headD 0) fuel = L.getLastD 0 := by
  induction L generalizing fuel with
  | nil => exact absurd rfl hne
  | cons a rest ih =>
    obtain ⟨f, rfl⟩ : ∃ f, fuel = f + 1 :=
      ⟨fuel - 1, by rw [List.length_cons] at hfuel; omega⟩
    have hns : ns.getD (a - 1) 0 = rest.headD 0 := by
      rw [hchain a (List.mem_cons_self a rest), nextAfter_cons_self]
    rw [List.headD_cons, lastSibling_succ, hns]
    cases rest with
    | nil => simp [List.getLastD]
    | cons b r =>
      have hb1 : 1 ≤ b :=
        hpos b (List.mem_cons_of_mem a (List.mem_cons_self b r))
      rw [List.headD_cons, if_neg (by omega), lastD_cons_cons]
      have hstep : lastSibling ns b f
          = lastSibling ns ((b :: r).headD 0) f := rfl
      rw [hstep]
      apply ih
      · simp only [List.length_cons] at hfuel ⊢
        omega
      · intro i hi
        have hia : a ≠ i := fun hh => (List.nodup_cons.mp hnd).1 (hh ▸ hi)
        rw [hchain i (List.mem_cons_of_mem a hi),
          nextAfter_cons_of_ne _ _ _ hia]
      · exact (List.nodup_cons.mp hnd).2
      · exact fun i hi => hpos i (List.mem_cons_of_mem a hi)
      · simp

/-- Parents strictly precede children: slot j holds a parent id at most j
(an id already issued when node j+1 was created). -/
def StrictParents (ps : List Nat) : Prop :=
  ∀ j, j < ps.length → ps.getD j 0 ≤ j

/-- The tree-shape invariant of NodeTable: parallel arrays of equal length,
parents strictly preceding, first_children holding the head of each node's
specification child list, and next_siblings realizing its successor
function (0 for root nodes, which are never linked into any chain). -/
def Inv (t : NodeTable) : Prop :=
  t.SameLen ∧ StrictParents t.parents ∧
  (∀ p, 1 ≤ p → p ≤ t.node_types.length →
    t.first_children.getD (p - 1) 0 = (childIds t.parents p).headD 0) ∧
  (∀ i, 1 ≤ i → i ≤ t.node_types.length →
    t.next_siblings.getD (i - 1) 0 =
      (if t.parents.getD (i - 1) 0 = 0 then 0
       else nextAfter (childIds t.parents (t.parents.getD (i - 1) 0)) i))

theorem Inv_empty : Inv {} := by
  refine ⟨⟨rfl, rfl, rfl, rfl⟩, ?_, ?_, ?_⟩
  · intro j hj
    simp at hj
  · intro p h1 h2
    simp at h2
    omega
  · intro i h1 h2
    simp at h2
    omega

theorem create_node_case0 (t : NodeTable) (nt : NodeType) (q sid : Nat)
    (hg : ¬(q > 0 ∧ q ≤ t.node_types.length + 1)) :
    (t.create_node nt q sid).2 =
      { node_types := t.node_types ++ [nt], parents := t.parents ++ [q],
        first_children := t.first_children ++ [0],
        next_siblings := t.next_siblings ++ [0],
        style_ids := t.style_ids ++ [sid] } := by
  unfold NodeTable.create_node
  dsimp only
  rw [if_neg]
  intro hcon
  apply hg
  refine ⟨hcon.1, ?_⟩
  have := hcon.2
  simp only [List.length_append, List.length_cons, List.length_nil] at this
  omega

theorem create_node_case1 (t : NodeTable) (nt : NodeType) (q sid : Nat)
    (hg : q > 0 ∧ q ≤ t.node_types.length + 1)
    (hfc : (t.first_children ++ [0]).getD (q - 1) 0 = 0) :
    (t.create_node nt q sid).2 =
      { node_types := t.node_types ++ [nt], parents := t.parents ++ [q],
        first_children :=
          (t.first_children ++ [0]).set (q - 1) (t.node_types.length + 1),
        next_siblings := t.next_siblings ++ [0],
        style_ids := t.style_ids ++ [sid] } := by
  unfold NodeTable.create_node
  dsimp only
  rw [if_pos ⟨hg.1, by
    simp only [List.length_append, List.length_cons, List.length_nil]
    omega⟩, if_pos hfc]

theorem create_node_case2 (t : NodeTable) (nt : NodeType) (q sid : Nat)
    (hg : q > 0 ∧ q ≤ t.node_types.length + 1)
    (hfc : (t.first_children ++ [0]).getD (q - 1) 0 ≠ 0) :
    (t.create_node nt q sid).2 =
      { node_types := t.node_types ++ [nt], parents := t.parents ++ [q],
        first_children := t.first_children ++ [0],
        next_siblings := (t.next_siblings ++ [0]).set
          (lastSibling (t.next_siblings ++ [0])
            ((t.first_children ++ [0]).getD (q - 1) 0)
            (t.node_types ++ [nt]).length - 1)
          (t.node_types.length + 1),
        style_ids := t.style_ids ++ [sid] } := by
  unfold NodeTable.create_node
  dsimp only
  rw [if_pos ⟨hg.1, by
    simp only [List.length_append, List.length_cons, List.length_nil]
    omega⟩, if_neg hfc]

/-- create_node preserves the tree-shape invariant whenever the parent
argument is 0 or an id the table has already issued. -/
theorem Inv_create (t : NodeTable) (nt : NodeType) (q sid : Nat)
    (hInv : Inv t) (hval : q ≤ t.node_types.length) :
    Inv (t.create_node nt q sid).2 := by
  obtain ⟨⟨hp, hf, hn, hs⟩, hSP, hFC, hNS⟩ := hInv
  have hSP1 : StrictParents (t.parents ++ [q]) := by
    intro j hj
    simp only [List.length_append, List.length_cons, List.length_nil] at hj
    by_cases hjn : j < t.parents.length
    · rw [getD_append_lt _ _ _ _ hjn]
      exact hSP j hjn
    · have hje : j = t.parents.length := by omega
      subst hje
      rw [getD_append_len]
      omega
  have hTop : ∀ p, t.node_types.length < p → childIds t.parents p = [] := by
    intro p hpp
    apply childIds_eq_nil_of_gt
    intro j hj
    have := hSP j hj
    omega
  have hCImem : ∀ p i, i ∈ childIds t.parents p →
      1 ≤ i ∧ i ≤ t.node_types.length ∧ t.parents.getD (i - 1) 0 = p := by
    intro p i hi
    obtain ⟨a, b, c⟩ := (mem_childIds _ _ _).mp hi
    exact ⟨a, by omega, c⟩
  by_cases hq0 : q = 0
  · subst hq0
    rw [create_node_case0 t nt 0 sid (by intro h; omega)]
    refine ⟨⟨?_, ?_, ?_, ?_⟩, hSP1, ?_, ?_⟩
    · simp [hp]
    · simp [hf]
    · simp [hn]
    · simp [hs]
    · intro p h1 h2
      dsimp only at h2 ⊢
      simp only [List.length_append, List.length_cons, List.length_nil] at h2
      rw [childIds_append, hp, if_neg (by omega), List.append_nil]
      by_cases hpn : p ≤ t.node_types.length
      · rw [getD_append_lt _ _ _ _ (by omega)]
        exact hFC p h1 hpn
      · have hpe : p = t.node_types.length + 1 := by omega
        subst hpe
        rw [hTop _ (by omega), List.headD_nil]
        have e : t.node_types.length + 1 - 1 = t.first_children.length := by omega
        rw [e, getD_append_len]
    · intro i h1 h2
      dsimp only at h2 ⊢
      simp only [List.length_append, List.length_cons, List.length_nil] at h2
      by_cases hin : i ≤ t.node_types.length
      · rw [getD_append_lt _ _ _ _ (by omega),
          getD_append_lt t.parents [0] 0 (i - 1) (by omega)]
        by_cases hpi0 : t.parents.getD (i - 1) 0 = 0
        · rw [if_pos hpi0]
          have hh := hNS i h1 hin
          rw [if_pos hpi0] at hh
          exact hh
        · rw [if_neg hpi0, childIds_append, hp,
            if_neg (fun hh => hpi0 hh.symm), List.append_nil]
          have hh := hNS i h1 hin
          rw [if_neg hpi0] at hh
          exact hh
      · have hie : i = t.node_types.length + 1 := by omega
        subst hie
        have hA : (t.next_siblings ++ [0]).getD
            (t.node_types.length + 1 - 1) 0 = 0 := by
          have e : t.node_types.length + 1 - 1 = t.next_siblings.length := by
            omega
          rw [e, getD_append_len]
        have hB : (t.parents ++ [0]).getD
            (t.node_types.length + 1 - 1) 0 = 0 := by
          have e : t.node_types.length + 1 - 1 = t.parents.length := by omega
          rw [e, getD_append_len]
        rw [hA, hB, if_pos rfl]
  · have hq1 : 1 ≤ q := by omega
    have hfcq : (t.first_children ++ [0]).getD (q - 1) 0
        = (childIds t.parents q).headD 0 := by
      rw [getD_append_lt _ _ _ _ (by omega)]
      exact hFC q hq1 hval
    by_cases hL : childIds t.parents q = []
    · rw [create_node_case1 t nt q sid ⟨by omega, by omega⟩
        (by rw [hfcq, hL]; rfl)]
      refine ⟨⟨?_, ?_, ?_, ?_⟩, hSP1, ?_, ?_⟩
      · simp [hp]
      · simp [hf]
      · simp [hn]
      · simp [hs]
      · intro p h1 h2
        dsimp only at h2 ⊢
        simp only [List.length_append, List.length_cons, List.length_nil] at h2
        rw [childIds_append, hp]
        by_cases hpq : p = q
        · subst hpq
          rw [if_pos rfl, hL, List.nil_append, List.headD_cons]
          rw [getD_set_self]
          simp only [List.length_append, List.length_cons, List.length_nil]
          omega
        · rw [if_neg (fun hh => hpq hh.symm), List.append_nil,
            getD_set_ne _ _ _ _ _ (by omega)]
          by_cases hpn : p ≤ t.node_types.length
          · rw [getD_append_lt _ _ _ _ (by omega)]
            exact hFC p h1 hpn
          · have hpe : p = t.node_types.length + 1 := by omega
            subst hpe
            rw [hTop _ (by omega), List.headD_nil]
            have e : t.node_types.length + 1 - 1 = t.first_children.length := by
              omega
            rw [e, getD_append_len]
      · intro i h1 h2
        dsimp only at h2 ⊢
        simp only [List.length_append, List.length_cons, List.length_nil] at h2
        by_cases hin : i ≤ t.node_types.length
        · rw [getD_append_lt _ _ _ _ (by omega),
            getD_append_lt t.parents [q] 0 (i - 1) (by omega)]
          by_cases hpi0 : t.parents.getD (i - 1) 0 = 0
          · rw [if_pos hpi0]
            have hh := hNS i h1 hin
            rw [if_pos hpi0] at hh
            exact hh
          · rw [if_neg hpi0, childIds_append, hp]
            by_cases hpiq : t.parents.getD (i - 1) 0 = q
            · exfalso
              have : i ∈ childIds t.parents q :=
                (mem_childIds _ _ _).mpr ⟨h1, by omega, hpiq⟩
              rw [hL] at this
              cases this
            · rw [if_neg (fun hh => hpiq hh.symm), List.append_nil]
              have hh := hNS i h1 hin
              rw [if_neg hpi0] at hh
              exact hh
        · have hie : i = t.node_types.length + 1 := by omega
          subst hie
          have hA : (t.next_siblings ++ [0]).getD
              (t.node_types.length + 1 - 1) 0 = 0 := by
            have e : t.node_types.length + 1 - 1 = t.next_siblings.length := by
              omega
            rw [e, getD_append_len]
          have hB : (t.parents ++ [q]).getD
              (t.node_types.length + 1 - 1) 0 = q := by
            have e : t.node_types.length + 1 - 1 = t.parents.length := by omega
            rw [e, getD_append_len]
          rw [hA, hB, if_neg (by omega), childIds_append, hp, if_pos rfl, hL,
            List.nil_append]
          rfl
    · have hv0 : (childIds t.parents q).headD 0 ≠ 0 :=
        fun hh => hL ((childIds_headD_zero_iff _ _).mp hh)
      have hchain : ∀ i ∈ childIds t.parents q,
          (t.next_siblings ++ [0]).getD (i - 1) 0
            = nextAfter (childIds t.parents q) i := by
        intro i hi
        obtain ⟨hi1, hi2, hi3⟩ := hCImem q i hi
        rw [getD_append_lt _ _ _ _ (by omega)]
        have hh := hNS i hi1 hi2
        rw [hi3, if_neg (by omega)] at hh
        exact hh
      have hposL : ∀ i ∈ childIds t.parents q, 1 ≤ i :=
        fun i hi => (hCImem q i hi).1
      have hndL := childIds_nodup t.parents q
      obtain ⟨lb, hlbdef⟩ : ∃ x, (childIds t.parents q).getLastD 0 = x :=
        ⟨_, rfl⟩
      have hlbmem : lb ∈ childIds t.parents q :=
        hlbdef ▸ getLastD_mem _ hL
      obtain ⟨hlb1, hlb2, hlb3⟩ := hCImem q lb hlbmem
      have hwalk : lastSibling (t.next_siblings ++ [0])
          ((t.first_children ++ [0]).getD (q - 1) 0)
          (t.node_types ++ [nt]).length
          = lb := by
        rw [hfcq, ← hlbdef]
        apply lastSibling_last _ _ _ ?_ hchain hndL hposL hL
        have := childIds_length_le t.parents q
        simp only [List.length_append, List.length_cons, List.length_nil]
        omega
      rw [create_node_case2 t nt q sid ⟨by omega, by omega⟩
        (by rw [hfcq]; exact hv0), hwalk]
      refine ⟨⟨?_, ?_, ?_, ?_⟩, hSP1, ?_, ?_⟩
      · simp [hp]
      · simp [hf]
      · simp [hn]
      · simp [hs]
      · intro p h1 h2
        dsimp only at h2 ⊢
        simp only [List.length_append, List.length_cons, List.length_nil] at h2
        rw [childIds_append, hp]
        by_cases hpq : p = q
        · subst hpq
          rw [if_pos rfl, getD_append_lt _ _ _ _ (by omega), hFC p h1 hval]
          cases hLc : childIds t.parents p with
          | nil => exact absurd hLc hL
          | cons a rest =>
            rw [List.cons_append, List.headD_cons, List.headD_cons]
        · rw [if_neg (fun hh => hpq hh.symm), List.append_nil]
          by_cases hpn : p ≤ t.node_types.length
          · rw [getD_append_lt _ _ _ _ (by omega)]
            exact hFC p h1 hpn
          · have hpe : p = t.node_types.length + 1 := by omega
            subst hpe
            rw [hTop _ (by omega), List.headD_nil]
            have e : t.node_types.length + 1 - 1 = t.first_children.length := by
              omega
            rw [e, getD_append_len]
      · intro i h1 h2
        dsimp only at h2 ⊢
        simp only [List.length_append, List.length_cons, List.length_nil] at h2
        by_cases hin : i ≤ t.node_types.length
        · rw [getD_append_lt t.parents [q] 0 (i - 1) (by omega), childIds_append,
            hp]
          by_cases hpi0 : t.parents.getD (i - 1) 0 = 0
          · rw [if_pos hpi0]
            have hilb : i ≠ lb := by
              intro hh
              rw [hh, hlb3] at hpi0
              omega
            rw [getD_set_ne _ _ _ _ _ (by omega),
              getD_append_lt _ _ _ _ (by omega)]
            have hh := hNS i h1 hin
            rw [if_pos hpi0] at hh
            exact hh
          · rw [if_neg hpi0]
            by_cases hpiq : t.parents.getD (i - 1) 0 = q
            · have hiL : i ∈ childIds t.parents q :=
                (mem_childIds _ _ _).mpr ⟨h1, by omega, hpiq⟩
              rw [hpiq, if_pos rfl]
              by_cases hilb : i = lb
              · subst hilb
                rw [getD_set_self _ _ _ _ (by
                  simp only [List.length_append, List.length_cons,
                    List.length_nil]
                  omega)]
                rw [nextAfter_append_last _ _ _ hndL hiL hlbdef]
              · rw [getD_set_ne _ _ _ _ _ (by omega),
                  getD_append_lt _ _ _ _ (by omega)]
                have hh := hNS i h1 hin
                rw [if_neg hpi0, hpiq] at hh
                rw [hh, nextAfter_append_of_ne_last _ _ _ hiL
                  (by rw [hlbdef]; exact fun hh2 => hilb hh2.symm)]
            · rw [if_neg (fun hh => hpiq hh.symm), List.append_nil]
              have hilb : i ≠ lb := by
                intro hh
                rw [hh, hlb3] at hpiq
                exact hpiq rfl
              rw [getD_set_ne _ _ _ _ _ (by omega),
                getD_append_lt _ _ _ _ (by omega)]
              have hh := hNS i h1 hin
              rw [if_neg hpi0] at hh
              exact hh
        · have hie : i = t.node_types.length + 1 := by omega
          subst hie
          have hB : (t.parents ++ [q]).getD
              (t.node_types.length + 1 - 1) 0 = q := by
            have e : t.node_types.length + 1 - 1 = t.parents.length := by omega
            rw [e, getD_append_len]
          rw [hB, childIds_append, hp, if_neg (by omega), if_pos rfl]
          have hA : ((t.next_siblings ++ [0]).set (lb - 1)
              (t.node_types.length + 1)).getD
              (t.node_types.length + 1 - 1) 0 = 0 := by
            rw [getD_set_ne _ _ _ _ _ (by omega)]
            have e : t.node_types.length + 1 - 1 = t.next_siblings.length := by
              omega
            rw [e, getD_append_len]
          rw [hA, nextAfter_append_self _ _ (by
            intro hh
            have := (hCImem q _ hh).2.1
            omega)]

theorem create_node_len (t : NodeTable) (nt : NodeType) (q sid : Nat) :
    (t.create_node nt q sid).2.node_types.length = t.node_types.length + 1 := by
  unfold NodeTable.create_node
  dsimp only
  split
  · split <;> simp
  · simp

theorem create_node_parents (t : NodeTable) (nt : NodeType) (q sid : Nat) :
    (t.create_node nt q sid).2.parents = t.parents ++ [q] := by
  unfold NodeTable.create_node
  dsimp only
  split
  · split <;> rfl
  · rfl

theorem buildTable_append (calls : List Call) (c : Call) :
    buildTable (calls ++ [c])
      = ((buildTable calls).create_node c.node_type c.parent c.style_id).2 := by
  unfold buildTable
  rw [List.foldl_append]
  rfl

theorem buildTable_len (calls : List Call) :
    (buildTable calls).node_types.length = calls.length := by
  induction calls using List.reverseRecOn with
  | nil => rfl
  | append_singleton l c ih =>
    rw [buildTable_append, create_node_len, ih, List.length_append]
    rfl

theorem buildTable_parents (calls : List Call) :
    (buildTable calls).parents = calls.map (fun c => c.parent) := by
  induction calls using List.reverseRecOn with
  | nil => rfl
  | append_singleton l c ih =>
    rw [buildTable_append, create_node_parents, ih, List.map_append]
    rfl

theorem validCalls_append (calls : List Call) (c : Call)
    (h : ValidCalls (calls ++ [c])) :
    ValidCalls calls ∧ c.parent ≤ calls.length := by
  constructor
  · intro i hi
    have hh := h i (by
      simp only [List.length_append, List.length_cons, List.length_nil]
      omega)
    rwa [getD_append_lt _ _ _ _ hi] at hh
  · have hh := h calls.length (by
      simp only [List.length_append, List.length_cons, List.length_nil]
      omega)
    rwa [getD_append_len] at hh

/-- Every table built from a valid call sequence satisfies the tree-shape
invariant. -/
theorem Inv_buildTable (calls : List Call) (h : ValidCalls calls) :
    Inv (buildTable calls) := by
  induction calls using List.reverseRecOn with
  | nil => exact Inv_empty
  | append_singleton l c ih =>
    obtain ⟨h1, h2⟩ := validCalls_append l c h
    rw [buildTable_append]
    exact Inv_create _ _ _ _ (ih h1) (by rw [buildTable_len]; exact h2)

/-- In any table satisfying the invariant, get_children returns exactly the
specification child list. -/
theorem get_children_of_Inv (t : NodeTable) (hInv : Inv t) (p : Nat)
    (h1 : 1 ≤ p) (h2 : p ≤ t.node_types.length) :
    t.get_children p = childIds t.parents p := by
  obtain ⟨⟨hp, hf, hn, hs⟩, hSP, hFC, hNS⟩ := hInv
  unfold NodeTable.get_children
  rw [if_neg (by omega), hFC p h1 h2]
  apply childrenAux_collect
  · have := childIds_length_le t.parents p
    omega
  · intro i hi
    obtain ⟨a, b, c⟩ := (mem_childIds _ _ _).mp hi
    have hh := hNS i a (by omega)
    rw [c, if_neg (by omega)] at hh
    exact hh
  · exact childIds_nodup _ _
  · intro i hi
    exact ((mem_childIds _ _ _).mp hi).1

theorem getD_map_parent (calls : List Call) (j : Nat) (h : j < calls.length) :
    (calls.map (fun c => c.parent)).getD j 0
      = (calls.getD j ⟨.Root, 0, 0⟩).parent := by
  rw [List.getD_eq_getElem _ _ (by rw [List.length_map]; exact h),
    List.getD_eq_getElem _ _ h, List.getElem_map]

/-- Claim C3: for any finite sequence of create_node calls in which every
parent argument is 0 or a previously returned id, get_children(p) returns
exactly the ids of the calls that passed p as parent, in call order; and
every created id lies in the child list of exactly one valid parent id when
its parent argument was nonzero, and in none when it was 0. -/
theorem create_node_children_spec (calls : List Call) (hv : ValidCalls calls) :
    (∀ p, 1 ≤ p → p ≤ calls.length →
      (buildTable calls).get_children p
        = childIds (calls.map (fun c => c.parent)) p) ∧
    (∀ j, j < calls.length →
      ((calls.getD j ⟨.Root, 0, 0⟩).parent = 0 →
        ∀ p, 1 ≤ p → p ≤ calls.length →
          (j + 1) ∉ (buildTable calls).get_children p) ∧
      ((calls.getD j ⟨.Root, 0, 0⟩).parent ≠ 0 →
        ∃! p, 1 ≤ p ∧ p ≤ calls.length ∧
          (j + 1) ∈ (buildTable calls).get_children p)) := by
  have hInv := Inv_buildTable calls hv
  have hlen := buildTable_len calls
  have hpar := buildTable_parents calls
  have hmain : ∀ p, 1 ≤ p → p ≤ calls.length →
      (buildTable calls).get_children p
        = childIds (calls.map (fun c => c.parent)) p := by
    intro p h1 h2
    rw [get_children_of_Inv _ hInv p h1 (by omega), hpar]
  refine ⟨hmain, ?_⟩
  intro j hj
  have hgd := getD_map_parent calls j hj
  constructor
  · intro h0 p h1 h2 hmem
    rw [hmain p h1 h2] at hmem
    obtain ⟨a, b, c⟩ := (mem_childIds _ _ _).mp hmem
    rw [show j + 1 - 1 = j from rfl, hgd, h0] at c
    omega
  · intro hne
    refine ⟨(calls.getD j ⟨.Root, 0, 0⟩).parent, ⟨⟨?_, ?_, ?_⟩, ?_⟩⟩
    · omega
    · have := hv j hj
      omega
    · rw [hmain _ (by omega) (by have := hv j hj; omega)]
      apply (mem_childIds _ _ _).mpr
      refine ⟨by omega, ?_, ?_⟩
      · rw [List.length_map]
        omega
      · rw [show j + 1 - 1 = j from rfl, hgd]
    · rintro p2 ⟨h1a, h2a, hmem2⟩
      rw [hmain p2 h1a h2a] at hmem2
      obtain ⟨a, b, c⟩ := (mem_childIds _ _ _).mp hmem2
      rw [show j + 1 - 1 = j from rfl, hgd] at c
      exact c.symm

/-- Concrete call sequence for the C3 witness: a root, then two children of
node 1. -/
def c3calls : List Call := [⟨.Root, 0, 0⟩, ⟨.Stack, 1, 0⟩, ⟨.Rect, 1, 0⟩]

theorem create_node_children_spec_witness :
    (buildTable c3calls).get_children 1
      = childIds (c3calls.map (fun c => c.parent)) 1 ∧
    (buildTable c3calls).get_children 1 = [2, 3] := by
  have h := create_node_children_spec c3calls (by
    intro i hi
    have h3 : i < 3 := by simpa using hi
    interval_cases i <;> decide)
  have he := h.1 1 (by decide) (by decide)
  exact ⟨he, by rw [he]; decide⟩

end Dop
